import Mathlib

/-!
Shallow embedding of the felund-core peer-to-peer chat substrate
(package `felundchat`): the in-memory data model (`models.py`), message
authentication (`crypto.py`), control-channel event application
(`channel_sync.py`), peer/message merging (`gossip.py`,
`rendezvous_client.py`), frame size handling (`transport.py`) and the
anchor store retention policy (`anchor.py`), together with theorems about
the claims of the specification.

Modelling conventions:
* Python dicts are association lists `List (String × α)` with insertion
  order preserved; assignment replaces the value in place, new keys are
  appended (as in CPython).  Python sets are duplicate-free `List String`
  with `sadd` appending new elements and `sdiscard` filtering.
* Scalar JSON / Python values appearing in event and wire dicts are
  modelled by `PyVal` (None, str, int, bool); the coercions `str(...)`,
  `int(...)` and truthiness follow CPython (ASCII-level for the string
  functions, which is all the code relies on).
* Exceptions are modelled with `Except PyErr` (or a `State × Option PyErr`
  pair when partially mutated state survives the exception, as it does for
  in-place mutation in Python).
* The cryptographic primitives HMAC-SHA-256 (`hmac_hex`) and the missing
  frame crypto (`encrypt_frame_bytes` / `decrypt_frame_bytes`, imported by
  `transport.py` but not present in the sources) are kept abstract: the
  functions take them as parameters, and every theorem quantifies over
  them.
-/

namespace Felund

/-- Python exceptions relevant to the embedded code paths. -/
inductive PyErr where
  | typeError
  | attributeError
  | valueError
deriving DecidableEq, Repr

/-- Scalar Python/JSON values as they occur in event and wire dicts. -/
inductive PyVal where
  | pynone
  | str (s : String)
  | int (n : Int)
  | bool (b : Bool)
deriving DecidableEq, Repr

/-- Embeds `str(v)` on a scalar value, as CPython renders it. -/
def pyStr : PyVal → String
  | .pynone => "None"
  | .str s => s
  | .int n => toString n
  | .bool true => "True"
  | .bool false => "False"

/-- Python truthiness of a scalar value. -/
def pyTruthy : PyVal → Bool
  | .pynone => false
  | .str s => s ≠ ""
  | .int n => n ≠ 0
  | .bool b => b

/-- Embeds `a or b` on values (first operand when truthy, second otherwise). -/
def pyOr (a b : PyVal) : PyVal := if pyTruthy a then a else b

/-- Characters stripped by Python's `str.strip()`. -/
def isPySpace (c : Char) : Bool :=
  c == ' ' || c == '\t' || c == '\n' || c == '\r' || c == '\x0b' || c == '\x0c'

/-- Embeds `s.strip()`. -/
def pyStrip (s : String) : String :=
  String.mk (((s.data.dropWhile isPySpace).reverse.dropWhile isPySpace).reverse)

/-- ASCII lower-casing of one character, as `str.lower()` does. -/
def pyLowerChar (c : Char) : Char :=
  if 'A' ≤ c ∧ c ≤ 'Z' then Char.ofNat (c.toNat + 32) else c

/-- Embeds `s.lower()`. -/
def pyLower (s : String) : String := String.mk (s.data.map pyLowerChar)

/-- Embeds `s[:n]` (slicing by code points). -/
def pyTake (n : Nat) (s : String) : String := String.mk (s.data.take n)

/-- Embeds `s.startswith("__")`. -/
def startsWithDunder (s : String) : Bool :=
  match s.data with
  | '_' :: '_' :: _ => true
  | _ => false

/-- Digit-string parsing used by `int(str)`: all characters must be digits. -/
def parseDigits : List Char → Option Nat
  | [] => none
  | cs => cs.foldl (fun acc c =>
      match acc with
      | none => none
      | some n => if c.isDigit then some (n * 10 + (c.toNat - 48)) else none)
      (some 0)

/-- Embeds `int(s)` on a string: optional sign and digits after stripping blanks. -/
def pyParseInt (s : String) : Except PyErr Int :=
  match (pyStrip s).data with
  | '-' :: ds => match parseDigits ds with
      | some n => .ok (-(n : Int))
      | none => .error .valueError
  | '+' :: ds => match parseDigits ds with
      | some n => .ok (n : Int)
      | none => .error .valueError
  | ds => match parseDigits ds with
      | some n => .ok (n : Int)
      | none => .error .valueError

/-- Embeds `int(v)`: ints pass through, bools coerce, strings parse, None raises. -/
def pyInt : PyVal → Except PyErr Int
  | .int n => .ok n
  | .bool b => .ok (if b then 1 else 0)
  | .str s => pyParseInt s
  | .pynone => .error .typeError

/-- A Python dict with scalar values (events, wire records). -/
abbrev Dict := List (String × PyVal)

/-- Dict lookup (`d.get(k)` without default). -/
def dlookup {α : Type} : List (String × α) → String → Option α
  | [], _ => none
  | (k, v) :: rest, key => if k = key then some v else dlookup rest key

/-- Embeds `d.get(k, default)`. -/
def dictGetD (d : Dict) (k : String) (dflt : PyVal) : PyVal :=
  (dlookup d k).getD dflt

/-- Dict assignment `d[k] = v`: replace in place, else append. -/
def dinsert {α : Type} : List (String × α) → String → α → List (String × α)
  | [], key, v => [(key, v)]
  | (k, w) :: rest, key, v =>
      if k = key then (k, v) :: rest else (k, w) :: dinsert rest key v

/-- Embeds `d.setdefault(k, v)`: insert only when the key is absent. -/
def dsetdefault {α : Type} (d : List (String × α)) (key : String) (v : α) :
    List (String × α) :=
  if (dlookup d key).isSome then d else d ++ [(key, v)]

/-- Embeds `s.add(x)` on a Python set (modelled as a duplicate-free list). -/
def sadd (s : List String) (x : String) : List String :=
  if x ∈ s then s else s ++ [x]

/-- Embeds `s.discard(x)` on a Python set. -/
def sdiscard (s : List String) (x : String) : List String :=
  s.filter (fun y => y != x)

/-! ## Data model (`models.py`) -/

/-- Embeds `models.NodeConfig`. -/
structure NodeConfig where
  node_id : String
  bind : String
  port : Int
  display_name : String := "anon"
  rendezvous_base : String := ""
  can_anchor : Bool := false
  is_mobile : Bool := false
  public_reachable : Bool := false
deriving DecidableEq, Repr

/-- Embeds `models.Circle`. -/
structure Circle where
  circle_id : String
  secret_hex : String
  name : String := ""
deriving DecidableEq, Repr

/-- Embeds `models.Peer`. -/
structure Peer where
  node_id : String
  addr : String
  last_seen : Int
deriving DecidableEq, Repr

/-- Embeds `models.AnchorRecord` (capabilities kept as a scalar dict). -/
structure AnchorRecord where
  node_id : String
  capabilities : Dict
  announced_at : Int
  last_seen_ts : Int
deriving DecidableEq, Repr

/-- Embeds `models.ChatMessage`.  Note: the dataclass has NO `enc` field; the
field list below is exactly the one in `models.py`. -/
structure ChatMessage where
  msg_id : String
  circle_id : String
  author_node_id : String
  created_ts : Int
  text : String
  channel_id : String := "general"
  display_name : String := ""
  mac : String := ""
  schema_version : Int := 1
deriving DecidableEq, Repr

/-- Embeds `models.Channel`. -/
structure Channel where
  channel_id : String
  circle_id : String
  created_by : String
  created_ts : Int
  access_mode : String := "public"
  key_hash : String := ""
deriving DecidableEq, Repr

/-- Embeds `models.State`: every table of the in-memory store. -/
structure State where
  node : NodeConfig
  circles : List (String × Circle)
  peers : List (String × Peer)
  circle_members : List (String × List String)
  messages : List (String × ChatMessage)
  channels : List (String × List (String × Channel))
  channel_members : List (String × List (String × List String))
  channel_requests : List (String × List (String × List String))
  node_display_names : List (String × String)
  anchor_records : List (String × List (String × AnchorRecord)) := []
deriving DecidableEq, Repr

/-! ## Message authentication (`crypto.py`)

`hmac_hex(key, payload)` (HMAC-SHA-256, hex digest) is an external
primitive; it is passed in as the parameter `hmac`.  `hmac.compare_digest`
is constant-time string equality, i.e. plain equality in the embedding. -/

/-- Embeds `crypto.make_message_mac`: HMAC over the canonical pipe-joined fields. -/
def make_message_mac (hmac : String → String → String) (secret_hex : String)
    (m : ChatMessage) : String :=
  hmac secret_hex
    (m.msg_id ++ "|" ++ m.circle_id ++ "|" ++ m.channel_id ++ "|" ++
     m.author_node_id ++ "|" ++ m.display_name ++ "|" ++
     toString m.created_ts ++ "|" ++ m.text)

/-- Embeds `crypto.verify_message_mac`: empty MAC fails, otherwise compare. -/
def verify_message_mac (hmac : String → String → String) (secret_hex : String)
    (m : ChatMessage) : Bool :=
  if m.mac = "" then false
  else make_message_mac hmac secret_hex m == m.mac

/-! ## Control-channel events (`channel_sync.py`) -/

def CONTROL_CHANNEL_ID : String := "__control"

/-- Embeds `channel_sync._valid_channel_id`: non-empty, ≤ 32 chars, no `__`
prefix, alphanumeric plus `-` and `_`. -/
def valid_channel_id (channel_id : String) : Bool :=
  if channel_id = "" ∨ 32 < channel_id.length then false
  else if startsWithDunder channel_id then false
  else channel_id.data.all (fun c => c.isAlphanum || c == '-' || c == '_')

/-- Inner map of a per-circle table (`state.channels[circle_id]` etc.),
empty when the circle has no entry. -/
def circleMap {α : Type} (m : List (String × List (String × α)))
    (circle_id : String) : List (String × α) :=
  (dlookup m circle_id).getD []

/-- Embeds `channel_sync._ensure_channel_maps`. -/
def ensure_channel_maps (st : State) (circle_id : String) : State :=
  { st with
    channels := dsetdefault st.channels circle_id [],
    channel_members := dsetdefault st.channel_members circle_id [],
    channel_requests := dsetdefault st.channel_requests circle_id [] }

/-- Embeds `channel_sync._ensure_general`: install the implicit `general`
channel (creator = the local node) and its empty member/request sets.
`now` stands for `now_ts()`. -/
def ensure_general (now : Int) (st : State) (circle_id : String) : State :=
  let st := ensure_channel_maps st circle_id
  let chans := circleMap st.channels circle_id
  let chans :=
    if (dlookup chans "general").isSome then chans
    else dinsert chans "general"
      { channel_id := "general", circle_id := circle_id,
        created_by := st.node.node_id, created_ts := now,
        access_mode := "public", key_hash := "" }
  let mems := dsetdefault (circleMap st.channel_members circle_id) "general" []
  let reqs := dsetdefault (circleMap st.channel_requests circle_id) "general" []
  { st with
    channels := dinsert st.channels circle_id chans,
    channel_members := dinsert st.channel_members circle_id mems,
    channel_requests := dinsert st.channel_requests circle_id reqs }

/-- Embeds `str(a) or str(b)` (first operand when non-empty). -/
def strOr (a b : String) : String := if a ≠ "" then a else b

/-- The `op` field of a channel event, as the code extracts it. -/
def opOf (event : Dict) : String := pyStr (dictGetD event "op" (.str ""))

/-- The `channel_id` field, stripped and lower-cased as in the code. -/
def channelIdOf (event : Dict) : String :=
  pyLower (pyStrip (pyStr (dictGetD event "channel_id" (.str ""))))

/-- The `node_id` field of a join/leave/request event. -/
def nodeIdOf (event : Dict) : String := pyStr (dictGetD event "node_id" (.str ""))

/-- The `target_node_id` field of an approve event. -/
def targetOf (event : Dict) : String :=
  pyStr (dictGetD event "target_node_id" (.str ""))

/-- The `actor_node_id` field. -/
def actorOf (event : Dict) : String :=
  pyStr (dictGetD event "actor_node_id" (.str ""))

/-- Embeds `int(event.get("created_ts", now_ts()) or now_ts())` — may raise
`ValueError`/`TypeError` on a malformed value. -/
def createdTsOf (now : Int) (event : Dict) : Except PyErr Int :=
  pyInt (pyOr (dictGetD event "created_ts" (.int now)) (.int now))

/-- Embeds `channel_sync.apply_channel_event`.  Mirrors the source line by line:
`rename` updates the display-name table; `create` installs a channel;
any other op on a syntactically valid channel id first implicitly creates
a public channel owned by the event's actor, then `join` adds
unconditionally, `leave` removes (except from `general`), `request`
records a pending join, and `approve` moves the target into the member
set — the source performs no access-mode, key-hash or owner check on
these paths.  `Except` models the uncaught `int()` exception on a
malformed `created_ts`. -/
def apply_channel_event (now : Int) (st : State) (circle_id : String)
    (event : Dict) : Except PyErr State :=
  let st := ensure_general now st circle_id
  let op := opOf event
  if op = "rename" then
    let node_id := pyStrip (nodeIdOf event)
    let display_name := pyStrip (pyStr (dictGetD event "display_name" (.str "")))
    if node_id ≠ "" ∧ display_name ≠ "" then
      .ok { st with node_display_names :=
              dinsert st.node_display_names node_id (pyTake 40 display_name) }
    else .ok st
  else
  let channel_id := channelIdOf event
  if op = "create" then
    if ¬ valid_channel_id channel_id then .ok st
    else
      let am := pyStr (dictGetD event "access_mode" (.str "public"))
      let access_mode :=
        if am = "public" ∨ am = "key" ∨ am = "invite" then am else "public"
      let created_by :=
        strOr (actorOf event) (pyStr (dictGetD event "created_by" (.str "")))
      match createdTsOf now event with
      | .error e => .error e
      | .ok created_ts =>
        let key_hash :=
          if access_mode = "key" then pyStr (dictGetD event "key_hash" (.str ""))
          else ""
        let chans := circleMap st.channels circle_id
        let chans :=
          if (dlookup chans channel_id).isSome then chans
          else dinsert chans channel_id
            { channel_id := channel_id, circle_id := circle_id,
              created_by := created_by, created_ts := created_ts,
              access_mode := access_mode, key_hash := key_hash }
        let mems := dsetdefault (circleMap st.channel_members circle_id) channel_id []
        let mems := dinsert mems channel_id (sadd ((dlookup mems channel_id).getD []) created_by)
        let reqs := dsetdefault (circleMap st.channel_requests circle_id) channel_id []
        .ok { st with
          channels := dinsert st.channels circle_id chans,
          channel_members := dinsert st.channel_members circle_id mems,
          channel_requests := dinsert st.channel_requests circle_id reqs }
  else if ¬ valid_channel_id channel_id then .ok st
  else
    -- implicit channel creation for join/leave/request/approve (and any
    -- other op that reaches this point)
    let chans := circleMap st.channels circle_id
    match (if (dlookup chans channel_id).isSome then .ok chans
           else (createdTsOf now event).map (fun created_ts =>
             dinsert chans channel_id
               { channel_id := channel_id, circle_id := circle_id,
                 created_by := actorOf event, created_ts := created_ts,
                 access_mode := "public", key_hash := "" })) with
    | .error e => .error e
    | .ok chans =>
      let mems := dsetdefault (circleMap st.channel_members circle_id) channel_id []
      let reqs := dsetdefault (circleMap st.channel_requests circle_id) channel_id []
      let st := { st with
        channels := dinsert st.channels circle_id chans,
        channel_members := dinsert st.channel_members circle_id mems,
        channel_requests := dinsert st.channel_requests circle_id reqs }
      if op = "join" then
        let node_id := nodeIdOf event
        if node_id ≠ "" then
          let mems := circleMap st.channel_members circle_id
          let mems := dinsert mems channel_id (sadd ((dlookup mems channel_id).getD []) node_id)
          let reqs := circleMap st.channel_requests circle_id
          let reqs := dinsert reqs channel_id (sdiscard ((dlookup reqs channel_id).getD []) node_id)
          .ok { st with
            channel_members := dinsert st.channel_members circle_id mems,
            channel_requests := dinsert st.channel_requests circle_id reqs }
        else .ok st
      else if op = "leave" then
        let node_id := nodeIdOf event
        if node_id ≠ "" ∧ channel_id ≠ "general" then
          let mems := circleMap st.channel_members circle_id
          let mems := dinsert mems channel_id (sdiscard ((dlookup mems channel_id).getD []) node_id)
          let reqs := circleMap st.channel_requests circle_id
          let reqs := dinsert reqs channel_id (sdiscard ((dlookup reqs channel_id).getD []) node_id)
          .ok { st with
            channel_members := dinsert st.channel_members circle_id mems,
            channel_requests := dinsert st.channel_requests circle_id reqs }
        else .ok st
      else if op = "request" then
        let node_id := nodeIdOf event
        if node_id ≠ "" then
          let reqs := circleMap st.channel_requests circle_id
          let reqs := dinsert reqs channel_id (sadd ((dlookup reqs channel_id).getD []) node_id)
          .ok { st with
            channel_requests := dinsert st.channel_requests circle_id reqs }
        else .ok st
      else if op = "approve" then
        let target_node_id := targetOf event
        if target_node_id ≠ "" then
          let reqs := circleMap st.channel_requests circle_id
          let reqs := dinsert reqs channel_id (sdiscard ((dlookup reqs channel_id).getD []) target_node_id)
          let mems := circleMap st.channel_members circle_id
          let mems := dinsert mems channel_id (sadd ((dlookup mems channel_id).getD []) target_node_id)
          .ok { st with
            channel_members := dinsert st.channel_members circle_id mems,
            channel_requests := dinsert st.channel_requests circle_id reqs }
        else .ok st
      else .ok st

/-- Embeds `channel_sync.apply_circle_name_event`: sets the circle's name to the
gossiped label whenever it is non-empty and differs from the current one
(the boolean reports whether the name changed). -/
def apply_circle_name_event (st : State) (circle_id : String)
    (event : Dict) : State × Bool :=
  match dlookup st.circles circle_id with
  | none => (st, false)
  | some c =>
    let name := pyTake 40 (pyStrip (pyStr (dictGetD event "name" (.str ""))))
    if name = "" then (st, false)
    else if c.name = name then (st, false)
    else ({ st with circles := dinsert st.circles circle_id { c with name := name } }, true)

/-! ## Peer and message merging (`gossip.py`) -/

/-- Embeds `circle_members.setdefault(circle_id, set()).add(node_id)`. -/
def addCircleMember (st : State) (circle_id node_id : String) : State :=
  let members := (dlookup st.circle_members circle_id).getD []
  { st with circle_members := dinsert st.circle_members circle_id (sadd members node_id) }

/-- Loop body of `GossipNode._merge_peers`: extract the fields (the
`int(... or 0)` may raise, aborting the loop with earlier mutations
kept), skip records without node id or addr, register circle membership,
and overwrite the peer record only when the incoming `last_seen` is
strictly greater than the stored one. -/
def merge_peers_go (circle_id : String) :
    State → List Dict → State × Option PyErr
  | st, [] => (st, none)
  | st, pd :: rest =>
    let node_id := pyStr (dictGetD pd "node_id" (.str ""))
    let addr := pyStr (dictGetD pd "addr" (.str ""))
    match pyInt (pyOr (dictGetD pd "last_seen" (.int 0)) (.int 0)) with
    | .error e => (st, some e)
    | .ok last_seen =>
      if node_id = "" ∨ addr = "" then merge_peers_go circle_id st rest
      else
        let st := addCircleMember st circle_id node_id
        let st :=
          match dlookup st.peers node_id with
          | none =>
            { st with peers :=
                dinsert st.peers node_id ⟨node_id, addr, last_seen⟩ }
          | some existing =>
            if existing.last_seen < last_seen then
              { st with peers :=
                  dinsert st.peers node_id ⟨node_id, addr, last_seen⟩ }
            else st
        merge_peers_go circle_id st rest

/-- Embeds `GossipNode._merge_peers` (the initial `setdefault` creates the
circle's member set even for an empty batch). -/
def merge_peers (st : State) (circle_id : String) (peer_dicts : List Dict) :
    State × Option PyErr :=
  let st := { st with circle_members := dsetdefault st.circle_members circle_id [] }
  merge_peers_go circle_id st peer_dicts

/-- The peer-record update in `GossipNode._handle_conn` after token
verification (gossip.py lines 139–148): with a `listen_addr` the record is
replaced outright with `last_seen = now_ts()`; without one only an
existing record's `last_seen` is set to `now_ts()`; the peer is always
added to the circle's member set. -/
def handle_conn_peer_update (now : Int) (st : State)
    (circle_id peer_node_id resolved_addr listen_addr : String) : State :=
  let st :=
    if listen_addr ≠ "" then
      { st with peers :=
          dinsert st.peers peer_node_id ⟨peer_node_id, resolved_addr, now⟩ }
    else
      match dlookup st.peers peer_node_id with
      | some p =>
        { st with peers := dinsert st.peers peer_node_id { p with last_seen := now } }
      | none => st
  addCircleMember st circle_id peer_node_id

/-- The post-`WELCOME` recording of the server peer in
`GossipNode.connect_and_sync` (gossip.py lines 507–516): record the
responding node with `last_seen = now_ts()` unless a fresher record
exists. -/
def record_server_peer (now : Int) (st : State)
    (circle_id server_node_id peer_addr : String) : State :=
  if server_node_id ≠ "" ∧ server_node_id ≠ st.node.node_id then
    let st := addCircleMember st circle_id server_node_id
    match dlookup st.peers server_node_id with
    | none =>
      { st with peers :=
          dinsert st.peers server_node_id ⟨server_node_id, peer_addr, now⟩ }
    | some existing =>
      if existing.last_seen ≤ now then
        { st with peers :=
            dinsert st.peers server_node_id ⟨server_node_id, peer_addr, now⟩ }
      else st
  else st

/-- An incoming message dict as fed to `ChatMessage(**md)`: the possible
`ChatMessage` fields (present or absent) plus any unexpected keys, such
as `"enc"`, which make the constructor raise `TypeError`. -/
structure MsgDict where
  msg_id : Option String := none
  circle_id : Option String := none
  author_node_id : Option String := none
  created_ts : Option Int := none
  text : Option String := none
  channel_id : Option String := none
  display_name : Option String := none
  mac : Option String := none
  schema_version : Option Int := none
  extra_keys : List String := []
deriving DecidableEq, Repr

/-- Embeds `ChatMessage(**md)`: `TypeError` on an unexpected keyword (e.g.
`enc`, which is not a field of `models.ChatMessage`) or on a missing
required field; defaults as in the dataclass otherwise. -/
def mkChatMessage (md : MsgDict) : Except PyErr ChatMessage :=
  if md.extra_keys ≠ [] then .error .typeError
  else
    match md.msg_id, md.circle_id, md.author_node_id, md.created_ts, md.text with
    | some mi, some ci, some au, some ts, some tx =>
      .ok { msg_id := mi, circle_id := ci, author_node_id := au,
            created_ts := ts, text := tx,
            channel_id := md.channel_id.getD "general",
            display_name := md.display_name.getD "",
            mac := md.mac.getD "",
            schema_version := md.schema_version.getD 1 }
    | _, _, _, _, _ => .error .typeError

/-- Embeds `dataclasses.asdict(m)`: the dict a node sends in `MSGS_SEND`. -/
def msgAsDict (m : ChatMessage) : MsgDict :=
  { msg_id := some m.msg_id, circle_id := some m.circle_id,
    author_node_id := some m.author_node_id, created_ts := some m.created_ts,
    text := some m.text, channel_id := some m.channel_id,
    display_name := some m.display_name, mac := some m.mac,
    schema_version := some m.schema_version, extra_keys := [] }

/-- Loop of `GossipNode._merge_messages`.  Per message dict: construct
`ChatMessage(**md)` (`TypeError` → skip), skip a foreign `circle_id`,
then evaluate `if m.enc is not None:` — `models.ChatMessage` declares no
`enc` field, so this attribute access raises an uncaught
`AttributeError`, aborting the whole merge with the state as mutated so
far; the MAC verification, store insertion and control-event dispatch
that follow in the source are unreachable. -/
def merge_messages_go (circle_id : String) :
    State → List MsgDict → State × Option PyErr
  | st, [] => (st, none)
  | st, md :: rest =>
    match mkChatMessage md with
    | .error _ => merge_messages_go circle_id st rest
    | .ok m =>
      if m.circle_id ≠ circle_id then merge_messages_go circle_id st rest
      else (st, some .attributeError)

/-- Embeds `GossipNode._merge_messages`: no-op for an unknown circle, else the
merge loop. -/
def merge_messages (st : State) (circle_id : String)
    (msg_dicts : List MsgDict) : State × Option PyErr :=
  match dlookup st.circles circle_id with
  | none => (st, none)
  | some _ => merge_messages_go circle_id st msg_dicts

/-! ## Relay / anchor-pull merging (`rendezvous_client.py`) -/

/-- The `ChatMessage(...)` a relay merge builds from a raw dict and its
already-coerced `created_ts`. -/
def relayMsgOf (raw : Dict) (created_ts : Int) : ChatMessage :=
  { msg_id := pyStr (dictGetD raw "msg_id" (.str "")),
    circle_id := pyStr (dictGetD raw "circle_id" (.str "")),
    channel_id := pyStr (dictGetD raw "channel_id" (.str "general")),
    author_node_id := pyStr (dictGetD raw "author_node_id" (.str "")),
    display_name := pyStr (dictGetD raw "display_name" (.str "")),
    created_ts := created_ts,
    text := pyStr (dictGetD raw "text" (.str "")),
    mac := pyStr (dictGetD raw "mac" (.str "")),
    schema_version := 1 }

/-- Loop of `rendezvous_client.merge_relay_messages`: skip empty or
already-present `msg_id`s before anything else, coerce the raw fields
(`int()` failure → skip, caught by the source's `except`), skip foreign
circles and messages whose MAC does not verify, and store the rest. -/
def merge_relay_go (hmac : String → String → String) (secret_hex : String)
    (circle_id : String) :
    State → Bool → List Dict → State × Bool
  | st, changed, [] => (st, changed)
  | st, changed, raw :: rest =>
    let msg_id := pyStr (dictGetD raw "msg_id" (.str ""))
    if msg_id = "" ∨ (dlookup st.messages msg_id).isSome then
      merge_relay_go hmac secret_hex circle_id st changed rest
    else
      match pyInt (dictGetD raw "created_ts" (.int 0)) with
      | .error _ => merge_relay_go hmac secret_hex circle_id st changed rest
      | .ok created_ts =>
        if (relayMsgOf raw created_ts).circle_id ≠ circle_id then
          merge_relay_go hmac secret_hex circle_id st changed rest
        else if ¬ verify_message_mac hmac secret_hex (relayMsgOf raw created_ts) then
          merge_relay_go hmac secret_hex circle_id st changed rest
        else
          merge_relay_go hmac secret_hex circle_id
            { st with messages := dinsert st.messages msg_id (relayMsgOf raw created_ts) }
            true rest

/-- Embeds `rendezvous_client.merge_relay_messages`. -/
def merge_relay_messages (hmac : String → String → String) (st : State)
    (circle_id : String) (raw_msgs : List Dict) : State × Bool :=
  match dlookup st.circles circle_id with
  | none => (st, false)
  | some c => merge_relay_go hmac c.secret_hex circle_id st false raw_msgs

/-! ## Framing (`transport.py`)

Frames are modelled at the line level: `dumps`/`loads` stand for
`json.dumps`/`json.loads`, `b64` / `b64decode` for base64, and
`encrypt` / `decrypt` for `crypto.encrypt_frame_bytes` /
`crypto.decrypt_frame_bytes` — the latter two are imported by
`transport.py` but are not among the sources, so they stay abstract.
Byte lengths of the UTF-8 wire lines are `String.utf8ByteSize`. -/

/-- Embeds `config.MSG_MAX`. -/
def MSG_MAX : Nat := 16384

/-- Errors of the framing layer. -/
inductive FrameErr where
  | eofError
  | frameTooLarge
  | jsonError
  | valueError
  | invalidTag
deriving DecidableEq, Repr

/-- Embeds `transport.write_frame`: serialize, append the newline, refuse lines
over `MSG_MAX` bytes; returns the wire line. -/
def write_frame {α : Type} (dumps : α → String) (obj : α) :
    Except FrameErr String :=
  let raw := dumps obj ++ "\n"
  if MSG_MAX < raw.utf8ByteSize then .error .frameTooLarge
  else .ok raw

/-- Embeds `transport.read_frame`: empty read is EOF, lines over `MSG_MAX` bytes
are refused, the rest is JSON-parsed. -/
def read_frame {α : Type} (loads : String → Option α) (line : String) :
    Except FrameErr α :=
  if line = "" then .error .eofError
  else if MSG_MAX < line.utf8ByteSize then .error .frameTooLarge
  else
    match loads line with
    | some obj => .ok obj
    | none => .error .jsonError

/-- Embeds `transport.write_enc_frame`: serialize, encrypt, base64-encode,
append the newline, refuse lines over `MSG_MAX * 2` bytes. -/
def write_enc_frame {α : Type} (dumps : α → String) (encrypt : String → String)
    (b64 : String → String) (obj : α) : Except FrameErr String :=
  let line := b64 (encrypt (dumps obj)) ++ "\n"
  if MSG_MAX * 2 < line.utf8ByteSize then .error .frameTooLarge
  else .ok line

/-- Embeds `transport.read_enc_frame`: empty read is EOF; otherwise the stripped
line is base64-decoded, decrypted and JSON-parsed.  The source performs
NO size check on this path. -/
def read_enc_frame {α : Type} (loads : String → Option α)
    (b64decode : String → Option String) (decrypt : String → Option String)
    (line : String) : Except FrameErr α :=
  if line = "" then .error .eofError
  else
    match b64decode (pyStrip line) with
    | none => .error .valueError
    | some data =>
      match decrypt data with
      | none => .error .invalidTag
      | some plaintext =>
        match loads plaintext with
        | some obj => .ok obj
        | none => .error .jsonError

/-! ## Anchor store retention (`anchor.py`)

An envelope dict is summarized by the value of its `"created_ts"` key
(`none` = key absent) and an opaque payload; its serialized byte size
`len(json.dumps(env))` is a pure function of the envelope and is passed
in as the parameter `size`. -/

def ANCHOR_MAX_AGE_S : Int := 24 * 3600

def ANCHOR_MAX_MSGS : Nat := 500

def ANCHOR_MAX_BYTES : Nat := 50 * 1024 * 1024

/-- A stored anchor envelope. -/
structure Envelope where
  created_ts : Option PyVal := none
  payload : String := ""
deriving DecidableEq, Repr

/-- Embeds the raw sort key `env.get("created_ts", 0)`: the stored value
itself, with no coercion (the count and byte caps sort by this, while the
age filter coerces it with `int(...)`). -/
def rawTs (env : Envelope) : PyVal := env.created_ts.getD (.int 0)

/-- Embeds `int(env.get("created_ts", 0))` — raises on a malformed value. -/
def envCreatedTs (env : Envelope) : Except PyErr Int :=
  pyInt (rawTs env)

/-- A store entry annotated with its extracted integer timestamp. -/
structure AnnEntry where
  mid : String
  env : Envelope
  ts : Int
deriving DecidableEq, Repr

/-- Numeric value of an int-or-bool key (`True` orders as 1, `False` as 0,
as in Python). -/
def keyNum : PyVal → Int
  | .int n => n
  | .bool b => if b then 1 else 0
  | _ => 0

/-- The total order the stable sort uses for the raw keys.  On two numbers
it is the numeric order and on two strings the lexicographic order, exactly
as in CPython.  The cross-shape branches only make the relation total so
that the sort is well defined on every list; they are never reached in an
`.ok` result, because `sortByRawTs` raises `TypeError` on any key list that
mixes shapes. -/
def rawLE (a b : PyVal) : Bool :=
  match a, b with
  | .str x, .str y => decide (x ≤ y)
  | .str _, _ => false
  | _, .str _ => true
  | x, y => decide (keyNum x ≤ keyNum y)

/-- Ordering used by `sorted(circle_store, key=...created_ts...)`: the raw
stored values, not their `int` coercions. -/
def tsLE (a b : AnnEntry) : Bool := rawLE (rawTs a.env) (rawTs b.env)

/-- Keys that Python compares with each other numerically. -/
def isNumKey : PyVal → Bool
  | .int _ => true
  | .bool _ => true
  | _ => false

/-- Keys that Python compares with each other lexicographically. -/
def isStrKey : PyVal → Bool
  | .str _ => true
  | _ => false

/-- Whether `sorted` runs over these keys without raising: with at most one
element no comparison ever happens, and otherwise the comparisons succeed
exactly when the keys are all numbers or all strings (any mixed pairing,
and `None` even against itself, raises `TypeError`, and a sorting pass over
a mixed list always performs at least one such comparison). -/
def sortableKeys (keys : List PyVal) : Bool :=
  decide (keys.length ≤ 1) || keys.all isNumKey || keys.all isStrKey

/-- Embeds `sorted(circle_store, key=lambda mid: circle_store[mid].get("created_ts", 0))`:
a stable sort of the entries by the raw stored `created_ts` values, raising
`TypeError` when the keys are not mutually comparable. -/
def sortByRawTs (l : List AnnEntry) : Except PyErr (List AnnEntry) :=
  if sortableKeys (l.map (fun e => rawTs e.env)) then .ok (l.mergeSort tsLE)
  else .error .typeError

/-- Annotate every entry with its `int(created_ts)`; the first failure
raises (as the full list comprehension in step 1 of the source does,
before any deletion happens). -/
def annotateTs : List (String × Envelope) → Except PyErr (List AnnEntry)
  | [] => .ok []
  | (mid, env) :: rest =>
    match envCreatedTs env, annotateTs rest with
    | .ok ts, .ok l => .ok (⟨mid, env, ts⟩ :: l)
    | .error e, _ => .error e
    | _, .error e => .error e

/-- Step 2 of `prune_anchor_store`: when the count exceeds
`ANCHOR_MAX_MSGS`, sort the store by the raw `created_ts` values (which
can raise `TypeError`) and delete the first `count - ANCHOR_MAX_MSGS`
entries of that order.  Deleting a key set from a dict is the
order-preserving filter, since dict keys are unique. -/
def applyCountCap (l : List AnnEntry) : Except PyErr (List AnnEntry) :=
  if ANCHOR_MAX_MSGS < l.length then
    match sortByRawTs l with
    | .error e => .error e
    | .ok srt =>
      let victims := (srt.take (l.length - ANCHOR_MAX_MSGS)).map AnnEntry.mid
      .ok (l.filter (fun e => !(victims.contains e.mid)))
  else .ok l

/-- Total serialized size, `sum(_env_bytes(env) for env in ...)`. -/
def totalBytes (size : Envelope → Nat) (l : List AnnEntry) : Nat :=
  (l.map (fun e => size e.env)).sum

/-- Step 3's eviction loop: walk the entries oldest-first and pop each
from the store until the running total falls under `ANCHOR_MAX_BYTES`
(`circle_store.pop(mid)` returns the stored envelope, which — keys being
unique — is the sorted entry itself). -/
def byteCapLoop (size : Envelope → Nat) :
    List AnnEntry → List AnnEntry → Nat → List AnnEntry
  | [], store, _ => store
  | o :: rest, store, total =>
    if total ≤ ANCHOR_MAX_BYTES then store
    else byteCapLoop size rest (store.filter (fun e => e.mid != o.mid))
      (total - size o.env)

/-- Step 3 of `prune_anchor_store`: recompute the total, then — when it
exceeds `ANCHOR_MAX_BYTES` — sort by the raw `created_ts` values (which
can raise `TypeError`) and evict along that order until the total fits. -/
def applyByteCap (size : Envelope → Nat) (l : List AnnEntry) :
    Except PyErr (List AnnEntry) :=
  let total := totalBytes size l
  if ANCHOR_MAX_BYTES < total then
    match sortByRawTs l with
    | .error e => .error e
    | .ok srt => .ok (byteCapLoop size srt l total)
  else .ok l

/-- Embeds `prune_anchor_store` restricted to one circle's store: drop
age-expired envelopes, cap the count, cap the total size.  The store
mutates in place, so the result pairs the store as the function leaves it
with the exception, if any: a raise in the step-1 comprehension leaves the
store untouched, and a `TypeError` from one of the raw-key sorts leaves
the deletions of the earlier steps in place. -/
def pruneCircleStore (size : Envelope → Nat) (now : Int)
    (cs : List (String × Envelope)) :
    List (String × Envelope) × Option PyErr :=
  match annotateTs cs with
  | .error e => (cs, some e)
  | .ok l =>
    let l1 := l.filter (fun e => decide (now - e.ts ≤ ANCHOR_MAX_AGE_S))
    match applyCountCap l1 with
    | .error e => (l1.map (fun e => (e.mid, e.env)), some e)
    | .ok l2 =>
      match applyByteCap size l2 with
      | .error e => (l2.map (fun e => (e.mid, e.env)), some e)
      | .ok l3 => (l3.map (fun e => (e.mid, e.env)), none)

/-- Embeds `anchor.prune_anchor_store`: no-op for a missing or empty circle
store, else prune that circle's store in place (the store as left behind is
kept even when the prune raises). -/
def prune_anchor_store (size : Envelope → Nat) (now : Int)
    (anchor_store : List (String × List (String × Envelope)))
    (circle_id : String) :
    List (String × List (String × Envelope)) × Option PyErr :=
  match dlookup anchor_store circle_id with
  | none => (anchor_store, none)
  | some cs =>
    if cs.isEmpty then (anchor_store, none)
    else
      let r := pruneCircleStore size now cs
      (dinsert anchor_store circle_id r.1, r.2)

/-- Embeds `anchor.store_anchor_envelope`: idempotent insert keyed by msg_id. -/
def store_anchor_envelope
    (anchor_store : List (String × List (String × Envelope)))
    (circle_id msg_id : String) (envelope : Envelope) :
    List (String × List (String × Envelope)) :=
  let store := dsetdefault anchor_store circle_id []
  let cs := (dlookup store circle_id).getD []
  if (dlookup cs msg_id).isSome then store
  else dinsert store circle_id (cs ++ [(msg_id, envelope)])

/-! ## Concrete fixtures used by the claim theorems -/

instance {ε α : Type} [DecidableEq ε] [DecidableEq α] :
    DecidableEq (Except ε α) := fun a b =>
  match a, b with
  | .ok x, .ok y =>
    if h : x = y then .isTrue (by rw [h]) else .isFalse (by simp [h])
  | .error e, .error f =>
    if h : e = f then .isTrue (by rw [h]) else .isFalse (by simp [h])
  | .ok _, .error _ => .isFalse (by simp)
  | .error _, .ok _ => .isFalse (by simp)

/-- A stand-in for `hmac_hex` used when evaluating on concrete inputs
(the theorems themselves quantify over the HMAC function). -/
def dummyHmac : String → String → String :=
  fun key payload => "hmac(" ++ key ++ ";" ++ payload ++ ")"

def baseNode : NodeConfig :=
  { node_id := "selfnode", bind := "127.0.0.1", port := 9999 }

def emptyState : State :=
  { node := baseNode, circles := [], peers := [], circle_members := [],
    messages := [], channels := [], channel_members := [],
    channel_requests := [], node_display_names := [], anchor_records := [] }

/-- Does `st` list `node_id` as a member of the channel? -/
def memberCheck (circle_id channel_id node_id : String) (st : State) : Bool :=
  ((dlookup (circleMap st.channel_members circle_id) channel_id).getD []).contains node_id

/-- Does `st` list `node_id` as a pending request of the channel? -/
def requestCheck (circle_id channel_id node_id : String) (st : State) : Bool :=
  ((dlookup (circleMap st.channel_requests circle_id) channel_id).getD []).contains node_id

def c1MsgBase : ChatMessage :=
  { msg_id := "m1", circle_id := "circA", author_node_id := "nodeB",
    created_ts := 1000, text := "hello", channel_id := "general",
    display_name := "bob", mac := "", schema_version := 1 }

/-- A well-formed plaintext chat message whose MAC verifies under the
circle secret `"sec"`. -/
def c1Msg : ChatMessage :=
  { c1MsgBase with mac := make_message_mac dummyHmac "sec" c1MsgBase }

def c1State : State :=
  { emptyState with
    circles := [("circA", { circle_id := "circA", secret_hex := "sec" })],
    circle_members := [("circA", ["nodeB"])] }

/-- C1 (code bug).  The claim says that merging a `MSGS_SEND` batch
containing a valid, MAC-verified, not-yet-stored message leaves the
message in `state.messages`.  On the source as written this is false for
every such message: `models.ChatMessage` has no `enc` field, so
`_merge_messages` raises `AttributeError` at `if m.enc is not None:` and
stores nothing.  Evaluated here at a concrete valid message. -/
theorem c1_valid_message_not_merged :
    verify_message_mac dummyHmac "sec" c1Msg = true ∧
    dlookup c1State.messages c1Msg.msg_id = none ∧
    merge_messages c1State "circA" [msgAsDict c1Msg] =
      (c1State, some PyErr.attributeError) ∧
    dlookup (merge_messages c1State "circA" [msgAsDict c1Msg]).1.messages
      c1Msg.msg_id = none := by
  decide

def c3State : State :=
  { emptyState with
    circles := [("circA", { circle_id := "circA", secret_hex := "sec" })],
    channels := [("circA",
      [("planning",
        { channel_id := "planning", circle_id := "circA",
          created_by := "owner", created_ts := 1,
          access_mode := "invite", key_hash := "" })])],
    channel_members := [("circA", [("planning", [])])],
    channel_requests := [("circA", [("planning", [])])] }

def c3Event : Dict :=
  [("t", .str "CHANNEL_EVT"), ("op", .str "join"),
   ("channel_id", .str "planning"), ("node_id", .str "mallory")]

/-- C3 (counterexample).  The claim says a join event on an `invite`
channel does not change the member set.  The source checks neither
access mode nor key hash on the apply path: a join on an invite channel
adds the node. -/
theorem c3_join_admitted_to_invite_channel :
    (dlookup (circleMap c3State.channels "circA") "planning").map
      Channel.access_mode = some "invite" ∧
    memberCheck "circA" "planning" "mallory" c3State = false ∧
    (apply_channel_event 5 c3State "circA" c3Event).map
      (memberCheck "circA" "planning" "mallory") = .ok true := by
  decide

def c4State : State :=
  { emptyState with
    circles := [("circA", { circle_id := "circA", secret_hex := "sec" })],
    channels := [("circA",
      [("planning",
        { channel_id := "planning", circle_id := "circA",
          created_by := "owner", created_ts := 1,
          access_mode := "invite", key_hash := "" })])],
    channel_members := [("circA", [("planning", [])])],
    channel_requests := [("circA", [("planning", ["bob"])])] }

def c4Event : Dict :=
  [("t", .str "CHANNEL_EVT"), ("op", .str "approve"),
   ("channel_id", .str "planning"), ("actor_node_id", .str "mallory"),
   ("target_node_id", .str "bob")]

/-- C4 (counterexample).  The claim says an approve event whose actor is
not the channel owner leaves member and pending sets unchanged.  The
source never inspects the actor on the approve path: the non-owner
approve by `mallory` (owner is `owner`) moves `bob` from the pending set
into the member set. -/
theorem c4_nonowner_approve_applied :
    (dlookup (circleMap c4State.channels "circA") "planning").map
      Channel.created_by = some "owner" ∧
    actorOf c4Event = "mallory" ∧
    memberCheck "circA" "planning" "bob" c4State = false ∧
    requestCheck "circA" "planning" "bob" c4State = true ∧
    (apply_channel_event 5 c4State "circA" c4Event).map
      (memberCheck "circA" "planning" "bob") = .ok true ∧
    (apply_channel_event 5 c4State "circA" c4Event).map
      (requestCheck "circA" "planning" "bob") = .ok false := by
  decide

def c5State : State :=
  { emptyState with
    circles := [("circA",
      { circle_id := "circA", secret_hex := "sec", name := "alpha" })] }

def c5Event : Dict :=
  [("t", .str "CIRCLE_NAME_EVT"), ("circle_id", .str "circA"),
   ("name", .str "beta")]

/-- C5 (code bug).  The claim (and the function's own docstring,
"First-to-name-wins: the local name takes precedence over any gossiped
one") says an already-named local circle keeps its name.  The code
overwrites it with any different non-empty gossiped label: applied to a
circle named `alpha`, the event renames it to `beta`. -/
theorem c5_existing_name_overwritten :
    (dlookup c5State.circles "circA").map Circle.name = some "alpha" ∧
    (apply_circle_name_event c5State "circA" c5Event).2 = true ∧
    (dlookup (apply_circle_name_event c5State "circA" c5Event).1.circles
      "circA").map Circle.name = some "beta" := by
  decide

def c6State : State :=
  { emptyState with
    circles := [("circA", { circle_id := "circA", secret_hex := "sec" })],
    peers := [("p1", { node_id := "p1", addr := "1.1.1.1:1", last_seen := 100 })] }

/-- C6 (counterexample).  The claim says `last_seen` never decreases
across any peer-updating operation, including handshake handling.  The
handshake path overwrites the record with `last_seen = now_ts()`
unconditionally, so a stored record carrying a future timestamp (e.g.
merged from a peer with a skewed clock) is moved backwards: stored 100,
clock 50 — the record drops to 50. -/
theorem c6_handshake_decreases_last_seen :
    (dlookup c6State.peers "p1").map Peer.last_seen = some 100 ∧
    (dlookup (handle_conn_peer_update 50 c6State "circA" "p1"
      "2.2.2.2:2" "2.2.2.2:2").peers "p1").map Peer.last_seen = some 50 ∧
    (50 : Int) < 100 := by
  decide

/-- Byte size of the all-`A` line of length `n`. -/
theorem utf8ByteSize_replicateA (n : Nat) :
    (String.mk (List.replicate n 'A')).utf8ByteSize = n := by
  show String.utf8ByteSize.go (List.replicate n 'A') = n
  induction n with
  | zero => rfl
  | succ k ih =>
    rw [List.replicate_succ]
    show String.utf8ByteSize.go (List.replicate k 'A') + 'A'.utf8Size = k + 1
    rw [ih]
    rfl

/-- A 32769-byte wire line: one byte over the encrypted-frame cap. -/
def bigLine : String := String.mk (List.replicate 32769 'A')

/-- C8 (counterexample).  The claim says every encrypted frame read
fails with an error when the base64 line exceeds 32 KiB.
`read_enc_frame` performs no size check at all: a 32769-byte line whose
decode, decryption and parse succeed is delivered. -/
theorem c8_oversize_enc_frame_delivered :
    MSG_MAX * 2 < bigLine.utf8ByteSize ∧
    @read_enc_frame Nat (fun _ => some 0) (fun _ => some "") (fun _ => some "")
      bigLine = .ok 0 := by
  constructor
  · rw [show bigLine.utf8ByteSize = 32769 from utf8ByteSize_replicateA 32769]
    decide
  · rfl

def c9GoodEnv : Envelope := { created_ts := some (.int 100), payload := "y" }

/-- A 502-entry circle store: over the 500-envelope cap, with one
envelope whose `created_ts` is the non-numeric string `notanumber`. -/
def c9BadStore : List (String × Envelope) :=
  ("bad", { created_ts := some (.str "notanumber"), payload := "x" }) ::
    (List.range 501).map (fun i => (toString i, c9GoodEnv))

def c9Anchor : List (String × List (String × Envelope)) := [("circA", c9BadStore)]

set_option maxRecDepth 8000 in
/-- C9 (counterexample).  The claim says that after `prune_anchor_store`
runs, the per-circle store holds at most 500 envelopes.  An envelope
whose `created_ts` does not coerce to `int` makes step 1 of the prune
raise `ValueError` before any deletion, so a 502-entry store stays at
502 entries — the anchor store comes back unchanged — however often the
prune runs. -/
theorem c9_malformed_ts_defeats_prune :
    prune_anchor_store (fun e => e.payload.length) 200 c9Anchor "circA" =
      (c9Anchor, some .valueError) ∧
    ANCHOR_MAX_MSGS < c9BadStore.length := by
  constructor
  · rfl
  · show ANCHOR_MAX_MSGS < (("bad",
      ({ created_ts := some (.str "notanumber"), payload := "x" } : Envelope)) ::
        (List.range 501).map (fun i => (toString i, c9GoodEnv))).length
    rw [List.length_cons, List.length_map, List.length_range]
    decide

/-! ## Dict and set lemmas -/

theorem dlookup_dinsert_self {α : Type} (d : List (String × α)) (k : String)
    (v : α) : dlookup (dinsert d k v) k = some v := by
  induction d with
  | nil => simp [dinsert, dlookup]
  | cons p rest ih =>
    obtain ⟨k0, v0⟩ := p
    by_cases h : k0 = k
    · simp [dinsert, h, dlookup]
    · simp [dinsert, h, dlookup, ih]

theorem dlookup_dinsert_ne {α : Type} (d : List (String × α)) (k k' : String)
    (v : α) (h : k' ≠ k) : dlookup (dinsert d k v) k' = dlookup d k' := by
  induction d with
  | nil => simp [dinsert, dlookup, Ne.symm h]
  | cons p rest ih =>
    obtain ⟨k0, v0⟩ := p
    by_cases h0 : k0 = k
    · subst h0
      simp [dinsert, dlookup, Ne.symm h]
    · by_cases h1 : k0 = k'
      · simp [dinsert, h0, dlookup, h1, h]
      · simp [dinsert, h0, dlookup, h1, ih]

theorem dlookup_append_single {α : Type} (d : List (String × α))
    (k k' : String) (v : α) (h : k' ≠ k) :
    dlookup (d ++ [(k, v)]) k' = dlookup d k' := by
  induction d with
  | nil => simp [dlookup, Ne.symm h]
  | cons p rest ih =>
    obtain ⟨k0, v0⟩ := p
    by_cases h1 : k0 = k'
    · simp [dlookup, h1]
    · simp [dlookup, h1, ih]

theorem dlookup_dsetdefault_ne {α : Type} (d : List (String × α))
    (k k' : String) (v : α) (h : k' ≠ k) :
    dlookup (dsetdefault d k v) k' = dlookup d k' := by
  unfold dsetdefault
  by_cases hs : (dlookup d k).isSome
  · simp [hs]
  · simp only [hs, if_false, Bool.false_eq_true]
    exact dlookup_append_single d k k' v h

theorem contains_sadd (s : List String) (x : String) :
    (sadd s x).contains x = true := by
  unfold sadd
  by_cases h : x ∈ s
  · simp only [if_pos h]
    simpa [List.elem_iff] using h
  · simp [h]

theorem contains_sdiscard (s : List String) (x : String) :
    (sdiscard s x).contains x = false := by
  simp [sdiscard, List.contains]

theorem mem_sadd (s : List String) (x : String) : x ∈ sadd s x := by
  unfold sadd
  by_cases h : x ∈ s
  · simp [h]
  · simp [h]

theorem not_mem_sdiscard (s : List String) (x : String) : x ∉ sdiscard s x := by
  simp [sdiscard]

/-! ## C2: admission soundness on both merge paths -/

/-- The `_merge_messages` loop never changes the state at all (it either
skips a dict or aborts with `AttributeError` before the store insert). -/
theorem merge_messages_go_fst (circle_id : String) :
    ∀ (mds : List MsgDict) (st : State),
      (merge_messages_go circle_id st mds).1 = st := by
  intro mds
  induction mds with
  | nil => intro st; rfl
  | cons md rest ih =>
    intro st
    unfold merge_messages_go
    cases hmk : mkChatMessage md with
    | error e => simpa using ih st
    | ok m =>
      by_cases hc : m.circle_id ≠ circle_id
      · simpa [hc] using ih st
      · simp [hc]

/-- Messages present after `merge_relay_go` were present before or carry
a MAC that verifies under the secret. -/
theorem merge_relay_go_sound (hmac : String → String → String)
    (secret_hex circle_id : String) :
    ∀ (raws : List Dict) (st : State) (changed : Bool) (mid : String)
      (m : ChatMessage),
      dlookup (merge_relay_go hmac secret_hex circle_id st changed raws).1.messages
        mid = some m →
      dlookup st.messages mid = some m ∨
        verify_message_mac hmac secret_hex m = true := by
  intro raws
  induction raws with
  | nil => intro st changed mid m h; exact Or.inl h
  | cons raw rest ih =>
    intro st changed mid m h
    rw [merge_relay_go] at h
    split at h
    · exact ih st changed mid m h
    · split at h
      · exact ih st changed mid m h
      · split at h
        · exact ih st changed mid m h
        · split at h
          · exact ih st changed mid m h
          · rename_i hskip created_ts hts hcirc hver
            rcases ih _ true mid m h with hold | hver2
            · by_cases hm : mid = pyStr (dictGetD raw "msg_id" (.str ""))
              · subst hm
                rw [dlookup_dinsert_self] at hold
                cases hold
                right
                simpa using hver
              · rw [dlookup_dinsert_ne _ _ _ _ hm] at hold
                exact Or.inl hold
            · exact Or.inr hver2

/-- C2.  Admission soundness: on the anti-entropy merge path
(`_merge_messages`) and on the relay/anchor merge path
(`merge_relay_messages`), a message found in `state.messages` after the
merge was either already there before, or its MAC verifies under the
circle secret.  (On the anti-entropy path the store is in fact never
extended at all — the `m.enc` attribute access aborts the loop first —
so the soundness holds a fortiori; no enc-envelope path exists, since
`models.ChatMessage` has no `enc` field.)  In particular a message with
an invalid MAC is never stored, no matter how often or via which path it
is offered. -/
theorem c2_admission_soundness :
    (∀ (st : State) (circle_id : String) (mds : List MsgDict)
       (mid : String) (m : ChatMessage),
       dlookup (merge_messages st circle_id mds).1.messages mid = some m →
       dlookup st.messages mid = some m) ∧
    (∀ (hmac : String → String → String) (st : State)
       (circle_id : String) (c : Circle) (raws : List Dict)
       (mid : String) (m : ChatMessage),
       dlookup st.circles circle_id = some c →
       dlookup (merge_relay_messages hmac st circle_id raws).1.messages mid =
         some m →
       dlookup st.messages mid = some m ∨
         verify_message_mac hmac c.secret_hex m = true) := by
  constructor
  · intro st circle_id mds mid m h
    unfold merge_messages at h
    cases hc : dlookup st.circles circle_id with
    | none => rw [hc] at h; exact h
    | some c =>
      rw [hc] at h
      rw [merge_messages_go_fst circle_id mds st] at h
      exact h
  · intro hmac st circle_id c raws mid m hc h
    unfold merge_relay_messages at h
    rw [hc] at h
    exact merge_relay_go_sound hmac c.secret_hex circle_id raws st false mid m h

/-- C2 (witness): instantiating the soundness theorem at a relay merge
that stores a message with a valid (dummy-)HMAC MAC. -/
theorem c2_admission_soundness_witness :
    dlookup c1State.circles "circA" =
      some { circle_id := "circA", secret_hex := "sec" } ∧
    (dlookup c1State.messages "m1" = some c1Msg ∨
      verify_message_mac dummyHmac "sec" c1Msg = true) := by
  constructor
  · decide
  · exact c2_admission_soundness.2 dummyHmac c1State "circA"
      { circle_id := "circA", secret_hex := "sec" }
      [[("msg_id", .str "m1"), ("circle_id", .str "circA"),
        ("channel_id", .str "general"),
        ("author_node_id", .str "nodeB"), ("display_name", .str "bob"),
        ("created_ts", .int 1000), ("text", .str "hello"),
        ("mac", .str (make_message_mac dummyHmac "sec" c1MsgBase))]]
      "m1" c1Msg (by decide) (by decide)

/-! ## C7: duplicate handling -/

/-- A message already present in the store of `c7State`. -/
def c7Dup : ChatMessage := { c1MsgBase with msg_id := "m0" }

def c7State : State := { c1State with messages := [("m0", c7Dup)] }

/-- C7 (counterexample).  The claim says a duplicate is dropped without
opening the envelope and does not disturb the merge of the remaining
messages in the batch.  In `_merge_messages` the duplicate check comes
last, after the `m.enc` access — which raises `AttributeError` — so a
batch `[duplicate, fresh valid message]` aborts at the duplicate and the
fresh message is lost. -/
theorem c7_duplicate_disturbs_batch :
    dlookup c7State.messages c7Dup.msg_id = some c7Dup ∧
    verify_message_mac dummyHmac "sec" c1Msg = true ∧
    merge_messages c7State "circA" [msgAsDict c7Dup, msgAsDict c1Msg] =
      (c7State, some PyErr.attributeError) ∧
    dlookup (merge_messages c7State "circA"
      [msgAsDict c7Dup, msgAsDict c1Msg]).1.messages c1Msg.msg_id = none := by
  decide

/-- C7 (amended).  What the code actually does with duplicates:
(1) `merge_relay_go` drops a record whose `msg_id` is already stored
before any field coercion or MAC verification, leaving the rest of the
batch to merge exactly as if the duplicate were absent;
(2) in the `_merge_messages` loop a dict carrying any unexpected key
(such as the `enc` envelope) fails `ChatMessage(**md)` with `TypeError`
and is skipped without being opened;
(3) any dict that does construct and matches the circle — duplicate or
not — aborts the whole merge with `AttributeError` (at the `m.enc`
access) with the state unchanged, before the duplicate check is
reached. -/
theorem c7_duplicate_handling :
    (∀ (hmac : String → String → String) (secret_hex circle_id : String)
       (st : State) (changed : Bool) (raw : Dict) (raws : List Dict),
       (dlookup st.messages (pyStr (dictGetD raw "msg_id" (.str "")))).isSome = true →
       merge_relay_go hmac secret_hex circle_id st changed (raw :: raws) =
         merge_relay_go hmac secret_hex circle_id st changed raws) ∧
    (∀ (circle_id : String) (st : State) (md : MsgDict) (rest : List MsgDict),
       md.extra_keys ≠ [] →
       merge_messages_go circle_id st (md :: rest) =
         merge_messages_go circle_id st rest) ∧
    (∀ (st : State) (circle_id : String) (c : Circle) (md : MsgDict)
       (m : ChatMessage) (rest : List MsgDict),
       dlookup st.circles circle_id = some c →
       mkChatMessage md = .ok m → m.circle_id = circle_id →
       merge_messages st circle_id (md :: rest) =
         (st, some PyErr.attributeError)) := by
  refine ⟨?_, ?_, ?_⟩
  · intro hmac secret_hex circle_id st changed raw raws hdup
    rw [merge_relay_go, if_pos (Or.inr hdup)]
  · intro circle_id st md rest hextra
    have hmk : mkChatMessage md = .error .typeError := by
      unfold mkChatMessage
      rw [if_pos hextra]
    rw [merge_messages_go, hmk]
  · intro st circle_id c md m rest hc hmk hcirc
    unfold merge_messages
    rw [hc, merge_messages_go, hmk]
    simp [hcirc]

/-- C7 (witness): the amended theorem applied at a stored duplicate, both
on the relay path (where the duplicate is skipped) and on the
anti-entropy path (where it aborts the batch). -/
theorem c7_duplicate_handling_witness :
    merge_relay_go dummyHmac "sec" "circA" c7State true [[("msg_id", .str "m0")]] =
      merge_relay_go dummyHmac "sec" "circA" c7State true [] ∧
    merge_messages c7State "circA" [msgAsDict c7Dup] =
      (c7State, some PyErr.attributeError) := by
  constructor
  · exact c7_duplicate_handling.1 dummyHmac "sec" "circA" c7State true
      [("msg_id", .str "m0")] [] (by decide)
  · exact c7_duplicate_handling.2.2 c7State "circA"
      { circle_id := "circA", secret_hex := "sec" } (msgAsDict c7Dup) c7Dup []
      (by decide) (by decide) (by decide)

/-! ## C3 / C4: what the apply path actually enforces -/

/-- The state an `Except`-returning apply produced, with a fallback. -/
def okStateD (r : Except PyErr State) (dflt : State) : State :=
  match r with
  | .ok s => s
  | .error _ => dflt

/-- C3 (amended).  Whenever a CHANNEL_EVT with `op = join`, a
syntactically valid channel id and a non-empty `node_id` applies
successfully, the named node ends up in the channel's member set and out
of its pending set — unconditionally: `apply_channel_event` consults
neither the channel's `access_mode` nor its `key_hash` (the key check
exists only on the sender side). -/
theorem c3_join_adds_unconditionally
    (now : Int) (st : State) (circle_id : String) (event : Dict) (st' : State)
    (hop : opOf event = "join")
    (hvalid : valid_channel_id (channelIdOf event) = true)
    (hnode : nodeIdOf event ≠ "")
    (happly : apply_channel_event now st circle_id event = .ok st') :
    memberCheck circle_id (channelIdOf event) (nodeIdOf event) st' = true ∧
    requestCheck circle_id (channelIdOf event) (nodeIdOf event) st' = false := by
  unfold apply_channel_event at happly
  rw [hop] at happly
  rw [if_neg (by decide : ¬ ("join" : String) = "rename")] at happly
  rw [if_neg (by decide : ¬ ("join" : String) = "create")] at happly
  rw [if_neg (by simp [hvalid])] at happly
  split at happly
  · try dsimp only at happly
    split at happly
    · simp at happly
    · try dsimp only at happly
      rw [if_pos hnode] at happly
      injection happly with h
      subst h
      constructor
      · simp [memberCheck, circleMap, dlookup_dinsert_self, contains_sadd,
          mem_sadd]
      · simp [requestCheck, circleMap, dlookup_dinsert_self, contains_sdiscard,
          not_mem_sdiscard]
  · rename_i h
    exact absurd rfl h

/-- C3 (witness): the amended theorem instantiated at the invite channel
fixture — `mallory` is admitted to the invite-only channel `planning`. -/
theorem c3_join_adds_unconditionally_witness :
    memberCheck "circA" (channelIdOf c3Event) (nodeIdOf c3Event)
      (okStateD (apply_channel_event 5 c3State "circA" c3Event) c3State) = true ∧
    requestCheck "circA" (channelIdOf c3Event) (nodeIdOf c3Event)
      (okStateD (apply_channel_event 5 c3State "circA" c3Event) c3State) = false :=
  c3_join_adds_unconditionally 5 c3State "circA" c3Event
    (okStateD (apply_channel_event 5 c3State "circA" c3Event) c3State)
    (by decide) (by decide) (by decide) (by decide)

/-- C4 (amended).  Whenever a CHANNEL_EVT with `op = approve`, a valid
channel id and a non-empty `target_node_id` applies successfully, the
target is moved out of the pending set and into the member set — for any
actor whatsoever: `apply_channel_event` never compares the event's actor
with the channel's `created_by` (the owner check exists only on the
sender side). -/
theorem c4_approve_ignores_actor
    (now : Int) (st : State) (circle_id : String) (event : Dict) (st' : State)
    (hop : opOf event = "approve")
    (hvalid : valid_channel_id (channelIdOf event) = true)
    (htarget : targetOf event ≠ "")
    (happly : apply_channel_event now st circle_id event = .ok st') :
    memberCheck circle_id (channelIdOf event) (targetOf event) st' = true ∧
    requestCheck circle_id (channelIdOf event) (targetOf event) st' = false := by
  unfold apply_channel_event at happly
  rw [hop] at happly
  rw [if_neg (by decide : ¬ ("approve" : String) = "rename")] at happly
  rw [if_neg (by decide : ¬ ("approve" : String) = "create")] at happly
  rw [if_neg (by simp [hvalid])] at happly
  split at happly
  · rename_i h
    exact absurd h (by decide)
  · split at happly
    · rename_i h
      exact absurd h (by decide)
    · split at happly
      · rename_i h
        exact absurd h (by decide)
      · split at happly
        · try dsimp only at happly
          split at happly
          · simp at happly
          · try dsimp only at happly
            rw [if_pos htarget] at happly
            injection happly with h
            subst h
            constructor
            · simp [memberCheck, circleMap, dlookup_dinsert_self, contains_sadd,
                mem_sadd]
            · simp [requestCheck, circleMap, dlookup_dinsert_self, contains_sdiscard,
                not_mem_sdiscard]
        · rename_i h
          exact absurd rfl h

/-- C4 (witness): the amended theorem instantiated at the fixture where
the non-owner `mallory` approves `bob` into the invite channel. -/
theorem c4_approve_ignores_actor_witness :
    memberCheck "circA" (channelIdOf c4Event) (targetOf c4Event)
      (okStateD (apply_channel_event 5 c4State "circA" c4Event) c4State) = true ∧
    requestCheck "circA" (channelIdOf c4Event) (targetOf c4Event)
      (okStateD (apply_channel_event 5 c4State "circA" c4Event) c4State) = false :=
  c4_approve_ignores_actor 5 c4State "circA" c4Event
    (okStateD (apply_channel_event 5 c4State "circA" c4Event) c4State)
    (by decide) (by decide) (by decide) (by decide)

/-! ## C6: last_seen monotonicity -/

/-- Embeds `addCircleMember` never touches the peer table. -/
theorem addCircleMember_peers (st : State) (circle_id node_id : String) :
    (addCircleMember st circle_id node_id).peers = st.peers := rfl

/-- Along the `_merge_peers` loop an existing peer record is either kept
exactly as it is (ties and older records included) or replaced by one
with a strictly greater `last_seen`. -/
theorem merge_peers_go_mono (circle_id : String) :
    ∀ (pds : List Dict) (st : State) (nid : String) (p p' : Peer),
      dlookup st.peers nid = some p →
      dlookup (merge_peers_go circle_id st pds).1.peers nid = some p' →
      p' = p ∨ p.last_seen < p'.last_seen := by
  intro pds
  induction pds with
  | nil =>
    intro st nid p p' hp hp'
    rw [merge_peers_go] at hp'
    injection hp.symm.trans hp' with h
    exact Or.inl h.symm
  | cons pd rest ih =>
    intro st nid p p' hp hp'
    rw [merge_peers_go] at hp'
    split at hp'
    · -- int() raised: loop aborted, state unchanged
      injection hp.symm.trans hp' with h
      exact Or.inl h.symm
    · split at hp'
      · exact ih st nid p p' hp hp'
      · rename_i last_seen hts hskip
        revert hp'
        try dsimp only
        split
        · -- no existing record: a fresh key was inserted
          rename_i hnone
          rw [addCircleMember_peers] at hnone
          intro hp'
          by_cases hn : nid = pyStr (dictGetD pd "node_id" (.str ""))
          · rw [← hn, hp] at hnone
            cases hnone
          · have hp2 : dlookup
                (dinsert (addCircleMember st circle_id
                  (pyStr (dictGetD pd "node_id" (.str "")))).peers
                  (pyStr (dictGetD pd "node_id" (.str "")))
                  ⟨pyStr (dictGetD pd "node_id" (.str "")),
                   pyStr (dictGetD pd "addr" (.str "")), last_seen⟩) nid = some p := by
              rw [dlookup_dinsert_ne _ _ _ _ hn, addCircleMember_peers]
              exact hp
            exact ih _ nid p p' hp2 hp'
        · -- existing record
          rename_i existing hsome
          rw [addCircleMember_peers] at hsome
          split
          · -- strictly newer: overwritten
            rename_i hlt
            intro hp'
            by_cases hn : nid = pyStr (dictGetD pd "node_id" (.str ""))
            · rw [hn] at hp
              injection hsome.symm.trans hp with he
              subst he
              have hp2 : dlookup
                  (dinsert (addCircleMember st circle_id
                    (pyStr (dictGetD pd "node_id" (.str "")))).peers
                    (pyStr (dictGetD pd "node_id" (.str "")))
                    ⟨pyStr (dictGetD pd "node_id" (.str "")),
                     pyStr (dictGetD pd "addr" (.str "")), last_seen⟩) nid =
                  some ⟨pyStr (dictGetD pd "node_id" (.str "")),
                     pyStr (dictGetD pd "addr" (.str "")), last_seen⟩ := by
                rw [hn]
                exact dlookup_dinsert_self _ _ _
              rcases ih _ nid _ p' hp2 hp' with h | h
              · right
                rw [h]
                exact hlt
              · right
                exact lt_trans hlt h
            · have hp2 : dlookup
                  (dinsert (addCircleMember st circle_id
                    (pyStr (dictGetD pd "node_id" (.str "")))).peers
                    (pyStr (dictGetD pd "node_id" (.str "")))
                    ⟨pyStr (dictGetD pd "node_id" (.str "")),
                     pyStr (dictGetD pd "addr" (.str "")), last_seen⟩) nid = some p := by
                rw [dlookup_dinsert_ne _ _ _ _ hn, addCircleMember_peers]
                exact hp
              exact ih _ nid p p' hp2 hp'
          · -- tie or older: record (address included) kept untouched
            intro hp'
            have hp2 : dlookup (addCircleMember st circle_id
                (pyStr (dictGetD pd "node_id" (.str "")))).peers nid = some p := by
              rw [addCircleMember_peers]; exact hp
            exact ih _ nid p p' hp2 hp'

/-- C6 (amended).  `last_seen` monotonicity holds exactly this way on the
code: (1) `_merge_peers` replaces an existing record only by one with a
strictly greater `last_seen` — on a tie or an older incoming record the
local record, address included, is kept byte for byte; (2) the handshake
update (`_handle_conn`) sets `last_seen` to the wall clock, so it is
non-decreasing provided the stored value does not lie in the future of
the local clock (an attacker-controlled future `last_seen` merged earlier
is moved backwards — see the counterexample); (3) the post-WELCOME
recording overwrites only when the clock is at least the stored
`last_seen`, hence is unconditionally non-decreasing. -/
theorem c6_last_seen_monotonic :
    (∀ (st : State) (circle_id : String) (pds : List Dict) (nid : String)
       (p p' : Peer),
       dlookup st.peers nid = some p →
       dlookup (merge_peers st circle_id pds).1.peers nid = some p' →
       p' = p ∨ p.last_seen < p'.last_seen) ∧
    (∀ (now : Int) (st : State) (circle_id pid raddr laddr nid : String)
       (p p' : Peer),
       dlookup st.peers nid = some p →
       p.last_seen ≤ now →
       dlookup (handle_conn_peer_update now st circle_id pid raddr laddr).peers
         nid = some p' →
       p.last_seen ≤ p'.last_seen) ∧
    (∀ (now : Int) (st : State) (circle_id sid paddr nid : String)
       (p p' : Peer),
       dlookup st.peers nid = some p →
       dlookup (record_server_peer now st circle_id sid paddr).peers nid =
         some p' →
       p.last_seen ≤ p'.last_seen) := by
  refine ⟨?_, ?_, ?_⟩
  · intro st circle_id pds nid p p' hp hp'
    unfold merge_peers at hp'
    dsimp only at hp'
    exact merge_peers_go_mono circle_id pds
      { st with circle_members := dsetdefault st.circle_members circle_id [] }
      nid p p' hp hp'
  · intro now st circle_id pid raddr laddr nid p p' hp hclock hp'
    unfold handle_conn_peer_update at hp'
    rw [addCircleMember_peers] at hp'
    split at hp'
    · by_cases hn : nid = pid
      · subst hn
        rw [dlookup_dinsert_self] at hp'
        injection hp' with h
        rw [← h]
        exact hclock
      · rw [dlookup_dinsert_ne _ _ _ _ hn, hp] at hp'
        injection hp' with h
        rw [h]
    · split at hp'
      · rename_i q hq
        by_cases hn : nid = pid
        · subst hn
          rw [dlookup_dinsert_self] at hp'
          injection hp' with h
          rw [← h]
          exact hclock
        · rw [dlookup_dinsert_ne _ _ _ _ hn, hp] at hp'
          injection hp' with h
          rw [h]
      · rw [hp] at hp'
        injection hp' with h
        rw [h]
  · intro now st circle_id sid paddr nid p p' hp hp'
    unfold record_server_peer at hp'
    split at hp'
    · dsimp only at hp'
      rw [addCircleMember_peers] at hp'
      split at hp'
      · rename_i hnone
        by_cases hn : nid = sid
        · rw [← hn, hp] at hnone
          cases hnone
        · rw [dlookup_dinsert_ne _ _ _ _ hn, hp] at hp'
          injection hp' with h
          rw [h]
      · rename_i existing hsome
        split at hp'
        · rename_i hle
          by_cases hn : nid = sid
          · subst hn
            rw [hp] at hsome
            injection hsome with he
            rw [dlookup_dinsert_self] at hp'
            injection hp' with h
            rw [← h, he]
            exact hle
          · rw [dlookup_dinsert_ne _ _ _ _ hn, hp] at hp'
            injection hp' with h
            rw [h]
        · rw [addCircleMember_peers, hp] at hp'
          injection hp' with h
          rw [h]
    · rw [hp] at hp'
      injection hp' with h
      rw [h]

/-- C6 (witness): the monotonicity theorem applied at concrete inputs —
a tied merge keeps the record, and a post-WELCOME update never lowers
`last_seen`. -/
theorem c6_last_seen_monotonic_witness :
    ((⟨"p1", "1.1.1.1:1", 100⟩ : Peer) = ⟨"p1", "1.1.1.1:1", 100⟩ ∨
      (100 : Int) < 100) ∧
    ((⟨"p1", "1.1.1.1:1", 100⟩ : Peer).last_seen ≤
      (⟨"p1", "5.5.5.5:5", 150⟩ : Peer).last_seen) := by
  constructor
  · exact c6_last_seen_monotonic.1 c6State "circA"
      [[("node_id", .str "p1"), ("addr", .str "3.3.3.3:3"),
        ("last_seen", .int 100)]] "p1"
      ⟨"p1", "1.1.1.1:1", 100⟩ ⟨"p1", "1.1.1.1:1", 100⟩ (by decide) (by decide)
  · exact c6_last_seen_monotonic.2.2 150 c6State "circA" "p1" "5.5.5.5:5" "p1"
      ⟨"p1", "1.1.1.1:1", 100⟩ ⟨"p1", "5.5.5.5:5", 150⟩ (by decide) (by decide)

/-! ## C8: frame size caps -/

/-- C8 (amended).  The size caps the code actually enforces:
plaintext writes and reads refuse lines over `MSG_MAX` (16384) bytes
(`write_frame` succeeds exactly on lines within the cap); encrypted
writes refuse lines over `MSG_MAX * 2` (32768) bytes; encrypted reads
(`read_enc_frame`) perform no size check whatsoever — they can never
fail with a frame-too-large error, so an oversize encrypted frame is
delivered to the protocol layer whenever it decodes, decrypts and
parses. -/
theorem c8_frame_size_caps :
    (∀ {α : Type} (dumps : α → String) (obj : α) (raw : String),
       write_frame dumps obj = .ok raw → raw.utf8ByteSize ≤ MSG_MAX) ∧
    (∀ {α : Type} (dumps : α → String) (obj : α),
       MSG_MAX < (dumps obj ++ "\n").utf8ByteSize →
       write_frame dumps obj = .error .frameTooLarge) ∧
    (∀ {α : Type} (loads : String → Option α) (line : String),
       line ≠ "" → MSG_MAX < line.utf8ByteSize →
       read_frame loads line = .error .frameTooLarge) ∧
    (∀ {α : Type} (dumps : α → String) (encrypt b64 : String → String)
       (obj : α) (line : String),
       write_enc_frame dumps encrypt b64 obj = .ok line →
       line.utf8ByteSize ≤ MSG_MAX * 2) ∧
    (∀ {α : Type} (loads : String → Option α)
       (b64decode decrypt : String → Option String) (line : String),
       read_enc_frame loads b64decode decrypt line ≠
         Except.error FrameErr.frameTooLarge) := by
  refine ⟨?_, ?_, ?_, ?_, ?_⟩
  · intro α dumps obj raw h
    unfold write_frame at h
    dsimp only at h
    split at h
    · cases h
    · rename_i hsize
      injection h with h2
      rw [← h2]
      omega
  · intro α dumps obj h
    unfold write_frame
    rw [if_pos h]
  · intro α loads line hne hsize
    unfold read_frame
    rw [if_neg hne, if_pos hsize]
  · intro α dumps encrypt b64 obj line h
    unfold write_enc_frame at h
    dsimp only at h
    split at h
    · cases h
    · rename_i hsize
      injection h with h2
      rw [← h2]
      omega
  · intro α loads b64decode decrypt line
    unfold read_enc_frame
    split
    · simp
    · cases hb : b64decode (pyStrip line) with
      | none => simp [hb]
      | some data =>
        cases hd : decrypt data with
        | none => simp [hb, hd]
        | some pt =>
          cases hl : loads pt with
          | none => simp [hb, hd, hl]
          | some obj => simp [hb, hd, hl]

/-- C8 (witness): the cap theorem applied at a 20000-byte plaintext line
(refused) and at a small write (within the cap). -/
theorem c8_frame_size_caps_witness :
    read_frame (fun _ => some (0 : Nat)) (String.mk (List.replicate 20000 'A')) =
      .error .frameTooLarge ∧
    "ab\n".utf8ByteSize ≤ MSG_MAX := by
  constructor
  · exact c8_frame_size_caps.2.2.1 (fun _ => some (0 : Nat))
      (String.mk (List.replicate 20000 'A')) (by decide)
      (by rw [utf8ByteSize_replicateA]; decide)
  · exact c8_frame_size_caps.1 (fun _ => "ab") (0 : Nat) "ab\n" (by decide)

/-! ## C10: implicit channel creation -/

theorem dlookup_append_of_none {α : Type} (d : List (String × α))
    (k : String) (v : α) (h : dlookup d k = none) :
    dlookup (d ++ [(k, v)]) k = some v := by
  induction d with
  | nil => simp [dlookup]
  | cons p rest ih =>
    obtain ⟨k0, v0⟩ := p
    by_cases h1 : k0 = k
    · rw [dlookup, if_pos h1] at h
      cases h
    · rw [dlookup, if_neg h1] at h
      simpa [dlookup, h1] using ih h

theorem dlookup_dsetdefault_self {α : Type} (d : List (String × α))
    (k : String) (v : α) :
    dlookup (dsetdefault d k v) k = some ((dlookup d k).getD v) := by
  unfold dsetdefault
  cases hd : dlookup d k with
  | none => simpa [hd] using dlookup_append_of_none d k v hd
  | some w => simp [hd]

theorem circleMap_dsetdefault_self {α : Type}
    (m : List (String × List (String × α))) (cid : String) :
    circleMap (dsetdefault m cid []) cid = circleMap m cid := by
  unfold circleMap
  rw [dlookup_dsetdefault_self]
  cases dlookup m cid <;> simp

/-- Embeds `_ensure_general` only touches the `general` entry of the circle's
three channel tables: every other channel id reads back unchanged. -/
theorem ensure_general_lookup (now : Int) (st : State) (circle_id ch : String)
    (hng : ch ≠ "general") :
    dlookup (circleMap (ensure_general now st circle_id).channels circle_id) ch =
      dlookup (circleMap st.channels circle_id) ch ∧
    dlookup (circleMap (ensure_general now st circle_id).channel_members
      circle_id) ch = dlookup (circleMap st.channel_members circle_id) ch ∧
    dlookup (circleMap (ensure_general now st circle_id).channel_requests
      circle_id) ch = dlookup (circleMap st.channel_requests circle_id) ch := by
  unfold ensure_general ensure_channel_maps
  dsimp only
  refine ⟨?_, ?_, ?_⟩
  · unfold circleMap
    rw [dlookup_dinsert_self]
    dsimp only [Option.getD_some]
    split
    · rename_i hg
      show dlookup (circleMap (dsetdefault st.channels circle_id []) circle_id) ch = _
      rw [circleMap_dsetdefault_self]
      rfl
    · rw [dlookup_dinsert_ne _ _ _ _ hng]
      show dlookup (circleMap (dsetdefault st.channels circle_id []) circle_id) ch = _
      rw [circleMap_dsetdefault_self]
      rfl
  · unfold circleMap
    rw [dlookup_dinsert_self]
    dsimp only [Option.getD_some]
    rw [dlookup_dsetdefault_ne _ _ _ _ hng]
    show dlookup (circleMap (dsetdefault st.channel_members circle_id []) circle_id) ch = _
    rw [circleMap_dsetdefault_self]
    rfl
  · unfold circleMap
    rw [dlookup_dinsert_self]
    dsimp only [Option.getD_some]
    rw [dlookup_dsetdefault_ne _ _ _ _ hng]
    show dlookup (circleMap (dsetdefault st.channel_requests circle_id []) circle_id) ch = _
    rw [circleMap_dsetdefault_self]
    rfl

/-- The member set an implicitly created channel ends up with, per op. -/
def implicitMembersAfter (event : Dict) : List String :=
  if opOf event = "join" then
    (if nodeIdOf event ≠ "" then [nodeIdOf event] else [])
  else if opOf event = "approve" then
    (if targetOf event ≠ "" then [targetOf event] else [])
  else []

/-- The pending-request set an implicitly created channel ends up with. -/
def implicitRequestsAfter (event : Dict) : List String :=
  if opOf event = "request" then
    (if nodeIdOf event ≠ "" then [nodeIdOf event] else [])
  else []

/-- C10.  A CHANNEL_EVT whose op is `join`, `leave`, `request` or
`approve` and that names a syntactically valid channel id not yet
present in the circle's tables (and distinct from the always-implicit
`general`) first creates that channel with `access_mode = "public"`,
`created_by` taken from the event's `actor_node_id`, and fresh member
and request sets, which then hold exactly the nodes the op itself added
(the joined node, the approved target, the requester — or nothing for
`leave` / an empty id). -/
theorem c10_implicit_channel_creation
    (now : Int) (st : State) (circle_id : String) (event : Dict) (st' : State)
    (hop : opOf event = "join" ∨ opOf event = "leave" ∨
           opOf event = "request" ∨ opOf event = "approve")
    (hvalid : valid_channel_id (channelIdOf event) = true)
    (hng : channelIdOf event ≠ "general")
    (habs : dlookup (circleMap st.channels circle_id) (channelIdOf event) = none)
    (habsm : dlookup (circleMap st.channel_members circle_id)
      (channelIdOf event) = none)
    (habsr : dlookup (circleMap st.channel_requests circle_id)
      (channelIdOf event) = none)
    (happly : apply_channel_event now st circle_id event = .ok st') :
    (∃ ts : Int,
      dlookup (circleMap st'.channels circle_id) (channelIdOf event) =
        some { channel_id := channelIdOf event, circle_id := circle_id,
               created_by := actorOf event, created_ts := ts,
               access_mode := "public", key_hash := "" }) ∧
    dlookup (circleMap st'.channel_members circle_id) (channelIdOf event) =
      some (implicitMembersAfter event) ∧
    dlookup (circleMap st'.channel_requests circle_id) (channelIdOf event) =
      some (implicitRequestsAfter event) := by
  obtain ⟨hE1, hE2, hE3⟩ :=
    ensure_general_lookup now st circle_id (channelIdOf event) hng
  have hF1 := hE1.trans habs
  have hF2 := hE2.trans habsm
  have hF3 := hE3.trans habsr
  simp only [circleMap] at hF2 hF3
  unfold apply_channel_event at happly
  rcases hop with hop | hop | hop | hop <;> rw [hop] at happly
  · -- join
    rw [if_neg (by decide : ¬ ("join" : String) = "rename")] at happly
    rw [if_neg (by decide : ¬ ("join" : String) = "create")] at happly
    rw [if_neg (by simp [hvalid])] at happly
    try dsimp only at happly
    rw [hF1] at happly
    simp only [Option.isSome_none, Bool.false_eq_true, if_false] at happly
    cases hct : createdTsOf now event with
    | error e =>
      rw [hct] at happly
      simp [Except.map] at happly
    | ok ts =>
      rw [hct] at happly
      simp only [Except.map] at happly
      try dsimp only at happly
      try simp only [if_true, if_false] at happly
      split at happly <;>
        (rename_i hcond
         injection happly with hst
         subst hst
         refine ⟨⟨ts, ?_⟩, ?_, ?_⟩ <;>
           simp [circleMap, dlookup_dinsert_self, dlookup_dsetdefault_self,
             hF2, hF3, implicitMembersAfter, implicitRequestsAfter, hop,
             hcond, sadd, sdiscard])
  · -- leave
    rw [if_neg (by decide : ¬ ("leave" : String) = "rename")] at happly
    rw [if_neg (by decide : ¬ ("leave" : String) = "create")] at happly
    rw [if_neg (by simp [hvalid])] at happly
    try dsimp only at happly
    rw [hF1] at happly
    simp only [Option.isSome_none, Bool.false_eq_true, if_false] at happly
    cases hct : createdTsOf now event with
    | error e =>
      rw [hct] at happly
      simp [Except.map] at happly
    | ok ts =>
      rw [hct] at happly
      simp only [Except.map] at happly
      try dsimp only at happly
      try simp only [if_true, if_false] at happly
      try rw [if_neg (by decide : ¬ ("leave" : String) = "join")] at happly
      try rw [if_pos (show ("leave" : String) = "leave" from rfl)] at happly
      try simp only [if_true, if_false] at happly
      split at happly <;>
        (rename_i hcond
         injection happly with hst
         subst hst
         refine ⟨⟨ts, ?_⟩, ?_, ?_⟩ <;>
           simp [circleMap, dlookup_dinsert_self, dlookup_dsetdefault_self,
             hF2, hF3, implicitMembersAfter, implicitRequestsAfter, hop,
             hcond, sadd, sdiscard])
  · -- request
    rw [if_neg (by decide : ¬ ("request" : String) = "rename")] at happly
    rw [if_neg (by decide : ¬ ("request" : String) = "create")] at happly
    rw [if_neg (by simp [hvalid])] at happly
    try dsimp only at happly
    rw [hF1] at happly
    simp only [Option.isSome_none, Bool.false_eq_true, if_false] at happly
    cases hct : createdTsOf now event with
    | error e =>
      rw [hct] at happly
      simp [Except.map] at happly
    | ok ts =>
      rw [hct] at happly
      simp only [Except.map] at happly
      try dsimp only at happly
      try simp only [if_true, if_false] at happly
      try rw [if_neg (by decide : ¬ ("request" : String) = "join")] at happly
      try rw [if_neg (by decide : ¬ ("request" : String) = "leave")] at happly
      try rw [if_pos (show ("request" : String) = "request" from rfl)] at happly
      try simp only [if_true, if_false] at happly
      split at happly <;>
        (rename_i hcond
         injection happly with hst
         subst hst
         refine ⟨⟨ts, ?_⟩, ?_, ?_⟩ <;>
           simp [circleMap, dlookup_dinsert_self, dlookup_dsetdefault_self,
             hF2, hF3, implicitMembersAfter, implicitRequestsAfter, hop,
             hcond, sadd, sdiscard])
  · -- approve
    rw [if_neg (by decide : ¬ ("approve" : String) = "rename")] at happly
    rw [if_neg (by decide : ¬ ("approve" : String) = "create")] at happly
    rw [if_neg (by simp [hvalid])] at happly
    try dsimp only at happly
    rw [hF1] at happly
    simp only [Option.isSome_none, Bool.false_eq_true, if_false] at happly
    cases hct : createdTsOf now event with
    | error e =>
      rw [hct] at happly
      simp [Except.map] at happly
    | ok ts =>
      rw [hct] at happly
      simp only [Except.map] at happly
      try dsimp only at happly
      try simp only [if_true, if_false] at happly
      try rw [if_neg (by decide : ¬ ("approve" : String) = "join")] at happly
      try rw [if_neg (by decide : ¬ ("approve" : String) = "leave")] at happly
      try rw [if_neg (by decide : ¬ ("approve" : String) = "request")] at happly
      try rw [if_pos (show ("approve" : String) = "approve" from rfl)] at happly
      try simp only [if_true, if_false] at happly
      split at happly <;>
        (rename_i hcond
         injection happly with hst
         subst hst
         refine ⟨⟨ts, ?_⟩, ?_, ?_⟩ <;>
           simp [circleMap, dlookup_dinsert_self, dlookup_dsetdefault_self,
             hF2, hF3, implicitMembersAfter, implicitRequestsAfter, hop,
             hcond, sadd, sdiscard])

/-- C10 (witness): the implicit-creation theorem applied at a concrete
`request` event naming a brand-new channel. -/
theorem c10_implicit_channel_creation_witness :
    (∃ ts : Int,
      dlookup (circleMap (okStateD
        (apply_channel_event 7 c1State "circA"
          [("t", .str "CHANNEL_EVT"), ("op", .str "request"),
           ("channel_id", .str "newchan"), ("actor_node_id", .str "alice"),
           ("node_id", .str "alice")]) c1State).channels "circA") "newchan" =
        some { channel_id := "newchan", circle_id := "circA",
               created_by := "alice", created_ts := ts,
               access_mode := "public", key_hash := "" }) ∧
    dlookup (circleMap (okStateD
      (apply_channel_event 7 c1State "circA"
        [("t", .str "CHANNEL_EVT"), ("op", .str "request"),
         ("channel_id", .str "newchan"), ("actor_node_id", .str "alice"),
         ("node_id", .str "alice")]) c1State).channel_members "circA")
      "newchan" = some [] ∧
    dlookup (circleMap (okStateD
      (apply_channel_event 7 c1State "circA"
        [("t", .str "CHANNEL_EVT"), ("op", .str "request"),
         ("channel_id", .str "newchan"), ("actor_node_id", .str "alice"),
         ("node_id", .str "alice")]) c1State).channel_requests "circA")
      "newchan" = some ["alice"] :=
  c10_implicit_channel_creation 7 c1State "circA"
    [("t", .str "CHANNEL_EVT"), ("op", .str "request"),
     ("channel_id", .str "newchan"), ("actor_node_id", .str "alice"),
     ("node_id", .str "alice")]
    (okStateD (apply_channel_event 7 c1State "circA"
      [("t", .str "CHANNEL_EVT"), ("op", .str "request"),
       ("channel_id", .str "newchan"), ("actor_node_id", .str "alice"),
       ("node_id", .str "alice")]) c1State)
    (by right; right; left; decide) (by decide) (by decide) (by decide)
    (by decide) (by decide) (by decide)

/-! ## C9: anchor retention lemmas -/

theorem rawLE_trans : ∀ a b c : PyVal,
    rawLE a b = true → rawLE b c = true → rawLE a c = true := by
  intro a b c hab hbc
  cases a <;> cases b <;> cases c <;>
    simp only [rawLE, decide_eq_true_eq] at * <;>
    first
      | rfl
      | exact le_trans hab hbc
      | exact absurd hab (by decide)
      | exact absurd hbc (by decide)

theorem bor_le_total (x y : Int) : (decide (x ≤ y) || decide (y ≤ x)) = true := by
  rcases le_total x y with h | h <;> simp [h]

theorem bor_le_total_str (x y : String) :
    (decide (x ≤ y) || decide (y ≤ x)) = true := by
  rcases le_total x y with h | h <;> simp [h]

theorem rawLE_total : ∀ a b : PyVal, (rawLE a b || rawLE b a) = true := by
  intro a b
  cases a <;> cases b <;>
    first
      | exact bor_le_total_str _ _
      | exact bor_le_total _ _
      | rfl

theorem rawLE_int (x y : Int) : rawLE (.int x) (.int y) = decide (x ≤ y) := rfl

theorem tsLE_trans : ∀ a b c : AnnEntry,
    tsLE a b = true → tsLE b c = true → tsLE a c = true := by
  intro a b c
  exact rawLE_trans _ _ _

theorem tsLE_total : ∀ a b : AnnEntry, (tsLE a b || tsLE b a) = true := by
  intro a b
  exact rawLE_total _ _

/-- Embeds the success side of the raw-key sort: a store whose raw
`created_ts` values are all integers sorts without raising. -/
theorem sortByRawTs_ok (l : List AnnEntry)
    (h : ∀ e ∈ l, ∃ n : Int, rawTs e.env = .int n) :
    sortByRawTs l = .ok (l.mergeSort tsLE) := by
  have hall : (l.map (fun e => rawTs e.env)).all isNumKey = true := by
    rw [List.all_eq_true]
    intro v hv
    obtain ⟨e, he, hve⟩ := List.mem_map.1 hv
    obtain ⟨n, hn⟩ := h e he
    rw [← hve, hn]
    rfl
  unfold sortByRawTs sortableKeys
  rw [hall]
  simp

/-- An `.ok` result of the raw-key sort is the stable sort by `tsLE`. -/
theorem sortByRawTs_eq_mergeSort (l srt : List AnnEntry)
    (h : sortByRawTs l = .ok srt) : srt = l.mergeSort tsLE := by
  unfold sortByRawTs at h
  split at h
  · injection h with h
    exact h.symm
  · exact Except.noConfusion h

/-- Annotation succeeds when every envelope's `created_ts` coerces, and
annotating preserves the entries and records the coerced timestamps. -/
theorem annotateTs_ok (cs : List (String × Envelope))
    (h : ∀ p ∈ cs, ∃ n : Int, envCreatedTs p.2 = .ok n) :
    ∃ l : List AnnEntry, annotateTs cs = .ok l ∧
      l.map (fun e => (e.mid, e.env)) = cs ∧
      (∀ e ∈ l, envCreatedTs e.env = .ok e.ts) := by
  induction cs with
  | nil => exact ⟨[], rfl, rfl, by intro e he; cases he⟩
  | cons p rest ih =>
    obtain ⟨mid, env⟩ := p
    obtain ⟨n, hn⟩ := h (mid, env) (List.mem_cons_self _ _)
    obtain ⟨l, hl, hmap, hts⟩ := ih (fun q hq => h q (List.mem_cons_of_mem _ hq))
    refine ⟨⟨mid, env, n⟩ :: l, ?_, ?_, ?_⟩
    · rw [annotateTs, hn, hl]
    · simp [hmap]
    · intro e he
      rcases List.mem_cons.1 he with he | he
      · subst he
        exact hn
      · exact hts e he

/-- The byte-cap loop only ever removes entries. -/
theorem byteCapLoop_sublist (size : Envelope → Nat) :
    ∀ (order store : List AnnEntry) (total : Nat),
      (byteCapLoop size order store total).Sublist store := by
  intro order
  induction order with
  | nil => intro store total; exact List.Sublist.refl store
  | cons o rest ih =>
    intro store total
    rw [byteCapLoop]
    split
    · exact List.Sublist.refl store
    · exact (ih _ _).trans (List.filter_sublist store)

/-- With unique mids, popping by mid is erasing the entry. -/
theorem filter_mid_eq_erase (store : List AnnEntry) (o : AnnEntry)
    (hnd : (store.map AnnEntry.mid).Nodup) (ho : o ∈ store) :
    store.filter (fun e => e.mid != o.mid) = store.erase o := by
  induction store with
  | nil => cases ho
  | cons a rest ih =>
    rw [List.map_cons, List.nodup_cons] at hnd
    obtain ⟨hnotin, hndrest⟩ := hnd
    by_cases hao : a = o
    · subst hao
      rw [List.erase_cons_head]
      have hfa : ((fun e : AnnEntry => e.mid != a.mid) a) = false := by simp
      rw [List.filter_cons_of_neg (by simp)]
      apply List.filter_eq_self.2
      intro e he
      simp only [bne_iff_ne, ne_eq]
      intro hmm
      exact hnotin (hmm ▸ List.mem_map_of_mem AnnEntry.mid he)
    · have ho' : o ∈ rest := by
        rcases List.mem_cons.1 ho with h | h
        · exact absurd h.symm hao
        · exact h
      have hamid : a.mid ≠ o.mid := by
        intro hmm
        exact hnotin (hmm ▸ List.mem_map_of_mem AnnEntry.mid ho')
      rw [List.filter_cons_of_pos (by simpa using hamid),
        List.erase_cons_tail]
      · rw [ih hndrest ho']
      · simpa using hao

theorem contains_true_iff (s : List String) (x : String) :
    s.contains x = true ↔ x ∈ s := by
  simp [List.contains, List.elem_iff]

/-- The byte-cap loop establishes the byte bound. -/
theorem byteCapLoop_bytes (size : Envelope → Nat) :
    ∀ (order store : List AnnEntry) (total : Nat),
      (store.map AnnEntry.mid).Nodup → order.Perm store →
      total = totalBytes size store →
      totalBytes size (byteCapLoop size order store total) ≤ ANCHOR_MAX_BYTES := by
  intro order
  induction order with
  | nil =>
    intro store total hnd hperm htot
    have hs : store = [] := hperm.symm.eq_nil
    subst hs
    rw [byteCapLoop]
    simp [totalBytes]
  | cons o rest ih =>
    intro store total hnd hperm htot
    rw [byteCapLoop]
    split
    · rename_i hle
      rw [← htot]
      exact hle
    · have ho : o ∈ store := hperm.subset (List.mem_cons_self _ _)
      rw [filter_mid_eq_erase store o hnd ho]
      have hpe : store.Perm (o :: store.erase o) := List.perm_cons_erase ho
      have hrest : rest.Perm (store.erase o) := (hperm.trans hpe).cons_inv
      have hnd' : ((store.erase o).map AnnEntry.mid).Nodup :=
        hnd.sublist ((List.erase_sublist o store).map AnnEntry.mid)
      have hsum : totalBytes size store =
          size o.env + totalBytes size (store.erase o) := by
        unfold totalBytes
        rw [(hpe.map (fun e => size e.env)).sum_eq]
        simp
      exact ih (store.erase o) (total - size o.env) hnd' hrest (by omega)

/-- The byte-cap loop evicts along the sort order: anything it removed
precedes (in `tsLE`) anything it kept. -/
theorem byteCapLoop_oldest_first (size : Envelope → Nat) :
    ∀ (order store : List AnnEntry) (total : Nat),
      (store.map AnnEntry.mid).Nodup → order.Perm store →
      order.Pairwise (fun a b => tsLE a b = true) →
      ∀ e ∈ store, e ∉ byteCapLoop size order store total →
      ∀ k ∈ byteCapLoop size order store total, tsLE e k = true := by
  intro order
  induction order with
  | nil =>
    intro store total hnd hperm hsort e he hne k hk
    have hs : store = [] := hperm.symm.eq_nil
    subst hs
    cases he
  | cons o rest ih =>
    intro store total hnd hperm hsort e he hne k hk
    rw [byteCapLoop] at hne hk
    by_cases hcap : total ≤ ANCHOR_MAX_BYTES
    · rw [if_pos hcap] at hne
      exact absurd he hne
    · rw [if_neg hcap] at hne hk
      have ho : o ∈ store := hperm.subset (List.mem_cons_self _ _)
      rw [filter_mid_eq_erase store o hnd ho] at hne hk
      have hpe : store.Perm (o :: store.erase o) := List.perm_cons_erase ho
      have hrest : rest.Perm (store.erase o) := (hperm.trans hpe).cons_inv
      have hnd' : ((store.erase o).map AnnEntry.mid).Nodup :=
        hnd.sublist ((List.erase_sublist o store).map AnnEntry.mid)
      by_cases heo : e = o
      · subst heo
        have hk2 : k ∈ store.erase e :=
          (byteCapLoop_sublist size rest _ _).subset hk
        have hkrest : k ∈ rest := hrest.mem_iff.2 hk2
        exact (List.pairwise_cons.1 hsort).1 k hkrest
      · have he' : e ∈ store.erase o := (List.mem_erase_of_ne heo).2 he
        exact ih (store.erase o) _ hnd' hrest
          ((List.pairwise_cons.1 hsort).2) e he' hne k hk

/-- When the raw keys are all integers, the byte cap cannot raise. -/
theorem applyByteCap_ok (size : Envelope → Nat) (l : List AnnEntry)
    (h : ∀ e ∈ l, ∃ n : Int, rawTs e.env = .int n) :
    ∃ R : List AnnEntry, applyByteCap size l = .ok R := by
  unfold applyByteCap
  dsimp only
  split
  · rw [sortByRawTs_ok l h]
    exact ⟨_, rfl⟩
  · exact ⟨l, rfl⟩

theorem applyByteCap_sublist (size : Envelope → Nat) (l R : List AnnEntry)
    (hok : applyByteCap size l = .ok R) : R.Sublist l := by
  unfold applyByteCap at hok
  dsimp only at hok
  split at hok
  · split at hok
    · exact Except.noConfusion hok
    · injection hok with hok
      subst hok
      exact byteCapLoop_sublist size _ _ _
  · injection hok with hok
    subst hok
    exact List.Sublist.refl l

theorem applyByteCap_bytes (size : Envelope → Nat) (l R : List AnnEntry)
    (hnd : (l.map AnnEntry.mid).Nodup)
    (hok : applyByteCap size l = .ok R) :
    totalBytes size R ≤ ANCHOR_MAX_BYTES := by
  unfold applyByteCap at hok
  dsimp only at hok
  split at hok
  · split at hok
    · exact Except.noConfusion hok
    · rename_i srt hsort
      have hsrt := sortByRawTs_eq_mergeSort l srt hsort
      subst hsrt
      injection hok with hok
      subst hok
      exact byteCapLoop_bytes size (l.mergeSort tsLE) l (totalBytes size l)
        hnd (List.mergeSort_perm l tsLE) rfl
  · rename_i h
    injection hok with hok
    subst hok
    omega

theorem applyByteCap_oldest_first (size : Envelope → Nat) (l R : List AnnEntry)
    (hnd : (l.map AnnEntry.mid).Nodup)
    (hok : applyByteCap size l = .ok R)
    (hint : ∀ e ∈ l, rawTs e.env = .int e.ts) :
    ∀ e ∈ l, e ∉ R → ∀ k ∈ R, e.ts ≤ k.ts := by
  unfold applyByteCap at hok
  dsimp only at hok
  split at hok
  · split at hok
    · exact Except.noConfusion hok
    · rename_i srt hsort
      have hsrt := sortByRawTs_eq_mergeSort l srt hsort
      subst hsrt
      injection hok with hok
      subst hok
      intro e he hne k hk
      have hlek := byteCapLoop_oldest_first size (l.mergeSort tsLE) l
        (totalBytes size l) hnd (List.mergeSort_perm l tsLE)
        (List.sorted_mergeSort tsLE_trans tsLE_total l) e he hne k hk
      have hkl : k ∈ l := (byteCapLoop_sublist size _ _ _).subset hk
      simp only [tsLE] at hlek
      rw [hint e he, hint k hkl, rawLE_int] at hlek
      exact of_decide_eq_true hlek
  · injection hok with hok
    subst hok
    intro e he hne k hk
    exact absurd he hne

/-- When the raw keys are all integers, the count cap cannot raise. -/
theorem applyCountCap_ok (l : List AnnEntry)
    (h : ∀ e ∈ l, ∃ n : Int, rawTs e.env = .int n) :
    ∃ R : List AnnEntry, applyCountCap l = .ok R := by
  unfold applyCountCap
  split
  · rw [sortByRawTs_ok l h]
    exact ⟨_, rfl⟩
  · exact ⟨l, rfl⟩

theorem applyCountCap_sublist (l R : List AnnEntry)
    (hok : applyCountCap l = .ok R) : R.Sublist l := by
  unfold applyCountCap at hok
  split at hok
  · split at hok
    · exact Except.noConfusion hok
    · dsimp only at hok
      injection hok with hok
      subst hok
      exact List.filter_sublist l
  · injection hok with hok
    subst hok
    exact List.Sublist.refl l

set_option maxRecDepth 4096 in
theorem applyCountCap_length (l R : List AnnEntry)
    (hnd : (l.map AnnEntry.mid).Nodup)
    (hok : applyCountCap l = .ok R) :
    R.length ≤ ANCHOR_MAX_MSGS := by
  unfold applyCountCap at hok
  split at hok
  · rename_i hgt
    split at hok
    · exact Except.noConfusion hok
    · rename_i srt hsort
      have hsrt := sortByRawTs_eq_mergeSort l srt hsort
      subst hsrt
      dsimp only at hok
      injection hok with hok
      subst hok
      have hperm : (l.mergeSort tsLE).Perm l := List.mergeSort_perm l tsLE
      have hSnd : ((l.mergeSort tsLE).map AnnEntry.mid).Nodup :=
        ((hperm.map AnnEntry.mid).nodup_iff).2 hnd
      have hsplit : (l.mergeSort tsLE).take (l.length - ANCHOR_MAX_MSGS) ++
          (l.mergeSort tsLE).drop (l.length - ANCHOR_MAX_MSGS) =
          l.mergeSort tsLE := List.take_append_drop _ _
      have hlen :
          (l.filter (fun e => !(((l.mergeSort tsLE).take
            (l.length - ANCHOR_MAX_MSGS)).map AnnEntry.mid).contains e.mid)).length =
          ((l.mergeSort tsLE).filter (fun e => !(((l.mergeSort tsLE).take
            (l.length - ANCHOR_MAX_MSGS)).map AnnEntry.mid).contains e.mid)).length :=
        ((hperm.filter _).length_eq).symm
      rw [hlen]
      have hfilter_take :
          ((l.mergeSort tsLE).take (l.length - ANCHOR_MAX_MSGS)).filter
            (fun e => !(((l.mergeSort tsLE).take
              (l.length - ANCHOR_MAX_MSGS)).map AnnEntry.mid).contains e.mid) = [] := by
        rw [List.filter_eq_nil_iff]
        intro a ha
        have hc : ((((l.mergeSort tsLE).take
            (l.length - ANCHOR_MAX_MSGS)).map AnnEntry.mid).contains a.mid) = true :=
          (contains_true_iff _ _).2 (List.mem_map_of_mem AnnEntry.mid ha)
        simp only [Bool.not_eq_true]
        rw [hc]
        decide
      calc ((l.mergeSort tsLE).filter _).length
          = (((l.mergeSort tsLE).take (l.length - ANCHOR_MAX_MSGS) ++
              (l.mergeSort tsLE).drop (l.length - ANCHOR_MAX_MSGS)).filter
              (fun e => !(((l.mergeSort tsLE).take
                (l.length - ANCHOR_MAX_MSGS)).map AnnEntry.mid).contains e.mid)).length := by
            rw [hsplit]
        _ ≤ (((l.mergeSort tsLE).take (l.length - ANCHOR_MAX_MSGS)).filter _).length +
              (((l.mergeSort tsLE).drop (l.length - ANCHOR_MAX_MSGS)).filter _).length := by
            rw [List.filter_append, List.length_append]
        _ ≤ 0 + ((l.mergeSort tsLE).drop (l.length - ANCHOR_MAX_MSGS)).length := by
            rw [hfilter_take]
            exact Nat.add_le_add (Nat.le_refl 0)
              ((List.filter_sublist _).length_le)
        _ ≤ ANCHOR_MAX_MSGS := by
            rw [Nat.zero_add, List.length_drop, hperm.length_eq]
            omega
  · rename_i h
    injection hok with hok
    subst hok
    omega

set_option maxRecDepth 4096 in
theorem applyCountCap_oldest_first (l R : List AnnEntry)
    (hnd : (l.map AnnEntry.mid).Nodup)
    (hok : applyCountCap l = .ok R)
    (hint : ∀ e ∈ l, rawTs e.env = .int e.ts) :
    ∀ e ∈ l, e ∉ R → ∀ k ∈ R, e.ts ≤ k.ts := by
  unfold applyCountCap at hok
  split at hok
  · rename_i hgt
    split at hok
    · exact Except.noConfusion hok
    · rename_i srt hsrtEq
      have hsrt := sortByRawTs_eq_mergeSort l srt hsrtEq
      subst hsrt
      dsimp only at hok
      injection hok with hok
      subst hok
      intro e he hne k hk
      have hperm : (l.mergeSort tsLE).Perm l := List.mergeSort_perm l tsLE
      have hSnd : ((l.mergeSort tsLE).map AnnEntry.mid).Nodup :=
        ((hperm.map AnnEntry.mid).nodup_iff).2 hnd
      have hsort := List.sorted_mergeSort tsLE_trans tsLE_total l
      have hsplit : (l.mergeSort tsLE).take (l.length - ANCHOR_MAX_MSGS) ++
          (l.mergeSort tsLE).drop (l.length - ANCHOR_MAX_MSGS) =
          l.mergeSort tsLE := List.take_append_drop _ _
      -- e was evicted: its mid is among the victims
      have hpe : (!((((l.mergeSort tsLE).take
          (l.length - ANCHOR_MAX_MSGS)).map AnnEntry.mid).contains e.mid)) = false := by
        cases hb : (!((((l.mergeSort tsLE).take
            (l.length - ANCHOR_MAX_MSGS)).map AnnEntry.mid).contains e.mid)) with
        | false => rfl
        | true => exact absurd (List.mem_filter.2 ⟨he, hb⟩) hne
      have hemid : e.mid ∈ ((l.mergeSort tsLE).take
          (l.length - ANCHOR_MAX_MSGS)).map AnnEntry.mid := by
        apply (contains_true_iff _ _).1
        cases hb : ((((l.mergeSort tsLE).take
            (l.length - ANCHOR_MAX_MSGS)).map AnnEntry.mid).contains e.mid) with
        | true => rfl
        | false =>
          rw [hb] at hpe
          exact absurd hpe (by decide)
      -- k was kept: its mid is not
      have hkl := List.mem_filter.1 hk
      have hkmid : k.mid ∉ ((l.mergeSort tsLE).take
          (l.length - ANCHOR_MAX_MSGS)).map AnnEntry.mid := by
        intro hmem
        have h2 := hkl.2
        rw [(contains_true_iff _ _).2 hmem] at h2
        exact absurd h2 (by decide)
      -- locate e in the take part and k in the drop part
      have hndsplit := hSnd
      rw [← hsplit, List.map_append, List.nodup_append] at hndsplit
      have heS : e ∈ l.mergeSort tsLE := hperm.mem_iff.2 he
      have hkS : k ∈ l.mergeSort tsLE := hperm.mem_iff.2 hkl.1
      rw [← hsplit] at heS hkS
      have heTake : e ∈ (l.mergeSort tsLE).take (l.length - ANCHOR_MAX_MSGS) := by
        rcases List.mem_append.1 heS with h | h
        · exact h
        · exact (hndsplit.2.2 hemid (List.mem_map_of_mem AnnEntry.mid h)).elim
      have hkDrop : k ∈ (l.mergeSort tsLE).drop (l.length - ANCHOR_MAX_MSGS) := by
        rcases List.mem_append.1 hkS with h | h
        · exact absurd (List.mem_map_of_mem AnnEntry.mid h) hkmid
        · exact h
      have hlek := ((List.pairwise_append.1 (hsplit ▸ hsort)).2.2) e heTake k hkDrop
      simp only [tsLE] at hlek
      rw [hint e he, hint k hkl.1, rawLE_int] at hlek
      exact of_decide_eq_true hlek
  · injection hok with hok
    subst hok
    intro e he hne k hk
    exact absurd he hne

/-- Full characterization of a successful circle-store prune, under the
hypothesis that every stored `created_ts` is an actual integer (so the age
coercion succeeds and the raw-key sorts compare numbers only, and cannot
raise). -/
theorem pruneCircleStore_ok (size : Envelope → Nat) (now : Int)
    (cs : List (String × Envelope))
    (hnd : (cs.map Prod.fst).Nodup)
    (hts : ∀ p ∈ cs, ∃ n : Int, rawTs p.2 = .int n) :
    ∃ R : List (String × Envelope), pruneCircleStore size now cs = (R, none) ∧
      R.length ≤ ANCHOR_MAX_MSGS ∧
      (R.map (fun p => size p.2)).sum ≤ ANCHOR_MAX_BYTES ∧
      (∀ p ∈ R, ∀ n : Int, envCreatedTs p.2 = .ok n →
        now - n ≤ ANCHOR_MAX_AGE_S) := by
  have htsc : ∀ p ∈ cs, ∃ n : Int, envCreatedTs p.2 = .ok n := by
    intro p hp
    obtain ⟨n, hn⟩ := hts p hp
    refine ⟨n, ?_⟩
    show pyInt (rawTs p.2) = .ok n
    rw [hn]
    rfl
  obtain ⟨l, hl, hmap, htsl⟩ := annotateTs_ok cs htsc
  have hraw : ∀ e ∈ l, rawTs e.env = .int e.ts := by
    intro e he
    have hmem : (e.mid, e.env) ∈ cs := by
      rw [← hmap]
      exact List.mem_map_of_mem _ he
    obtain ⟨n, hn⟩ := hts (e.mid, e.env) hmem
    have h1 : envCreatedTs e.env = .ok n := by
      show pyInt (rawTs e.env) = .ok n
      rw [hn]
      rfl
    have h2 := htsl e he
    rw [h1] at h2
    injection h2 with h2
    rw [hn, h2]
  have hndl : (l.map AnnEntry.mid).Nodup := by
    have hmm : l.map AnnEntry.mid = cs.map Prod.fst := by
      rw [← hmap, List.map_map]
      rfl
    rw [hmm]
    exact hnd
  have hnd1 : ((l.filter
      (fun e => decide (now - e.ts ≤ ANCHOR_MAX_AGE_S))).map AnnEntry.mid).Nodup :=
    hndl.sublist ((List.filter_sublist l).map AnnEntry.mid)
  have hraw1 : ∀ e ∈ l.filter (fun e => decide (now - e.ts ≤ ANCHOR_MAX_AGE_S)),
      ∃ n : Int, rawTs e.env = .int n :=
    fun e he => ⟨e.ts, hraw e ((List.filter_sublist l).subset he)⟩
  obtain ⟨l2, hok2⟩ := applyCountCap_ok _ hraw1
  have hsub2 : l2.Sublist
      (l.filter (fun e => decide (now - e.ts ≤ ANCHOR_MAX_AGE_S))) :=
    applyCountCap_sublist _ _ hok2
  have hnd2 : (l2.map AnnEntry.mid).Nodup :=
    hnd1.sublist (hsub2.map AnnEntry.mid)
  have hraw2 : ∀ e ∈ l2, ∃ n : Int, rawTs e.env = .int n :=
    fun e he => hraw1 e (hsub2.subset he)
  obtain ⟨l3, hok3⟩ := applyByteCap_ok size l2 hraw2
  have hsub3 : l3.Sublist l2 := applyByteCap_sublist size l2 l3 hok3
  refine ⟨l3.map (fun e => (e.mid, e.env)), ?_, ?_, ?_, ?_⟩
  · unfold pruneCircleStore
    rw [hl]
    dsimp only
    rw [hok2]
    dsimp only
    rw [hok3]
  · rw [List.length_map]
    exact le_trans hsub3.length_le (applyCountCap_length _ _ hnd1 hok2)
  · have hcomp : ((l3.map (fun e => (e.mid, e.env))).map
        (fun p => size p.2)).sum = totalBytes size l3 := by
      rw [List.map_map]
      rfl
    rw [hcomp]
    exact applyByteCap_bytes size l2 l3 hnd2 hok3
  · intro p hp n hpn
    obtain ⟨e, he3, hpe⟩ := List.mem_map.1 hp
    have he2 : e ∈ l2 := hsub3.subset he3
    have he1 : e ∈ l.filter (fun e => decide (now - e.ts ≤ ANCHOR_MAX_AGE_S)) :=
      hsub2.subset he2
    have hage : now - e.ts ≤ ANCHOR_MAX_AGE_S :=
      of_decide_eq_true (List.mem_filter.1 he1).2
    have heok : envCreatedTs e.env = .ok e.ts :=
      htsl e ((List.filter_sublist l).subset he1)
    rw [← hpe] at hpn
    rw [heok] at hpn
    injection hpn with hn
    omega

/-- C9 (amended).  Provided every stored envelope's `created_ts` is an
actual integer, `prune_anchor_store` completes without raising and the
pruned per-circle store satisfies all three retention caps — at most 500
envelopes, at most 50 MiB of serialized bytes (for any serialized-size
function), and no envelope older than 24 hours — and both the count cap
and the byte cap evict oldest-first: an evicted envelope's timestamp
never exceeds a surviving one's.  The integer hypothesis cannot be
relaxed to `int`-coercible values: the age step's coercion raises on a
malformed value before any deletion (see the counterexample), and the
count and byte caps sort by the raw stored values, so mixed-shape keys
raise `TypeError` mid-prune and all-string keys order lexicographically
(`sortByRawTs`), not numerically. -/
theorem c9_anchor_retention :
    (∀ (size : Envelope → Nat) (now : Int)
       (anchor_store : List (String × List (String × Envelope)))
       (circle_id : String) (cs : List (String × Envelope)),
       dlookup anchor_store circle_id = some cs →
       (cs.map Prod.fst).Nodup →
       (∀ p ∈ cs, ∃ n : Int, rawTs p.2 = .int n) →
       ∃ R : List (String × Envelope),
         pruneCircleStore size now cs = (R, none) ∧
         prune_anchor_store size now anchor_store circle_id =
           (if cs.isEmpty then anchor_store
            else dinsert anchor_store circle_id R, none) ∧
         R.length ≤ ANCHOR_MAX_MSGS ∧
         (R.map (fun p => size p.2)).sum ≤ ANCHOR_MAX_BYTES ∧
         (∀ p ∈ R, ∀ n : Int, envCreatedTs p.2 = .ok n →
           now - n ≤ ANCHOR_MAX_AGE_S)) ∧
    (∀ (l R : List AnnEntry), (l.map AnnEntry.mid).Nodup →
       applyCountCap l = .ok R →
       (∀ e ∈ l, rawTs e.env = .int e.ts) →
       ∀ e ∈ l, e ∉ R → ∀ k ∈ R, e.ts ≤ k.ts) ∧
    (∀ (size : Envelope → Nat) (l R : List AnnEntry),
       (l.map AnnEntry.mid).Nodup →
       applyByteCap size l = .ok R →
       (∀ e ∈ l, rawTs e.env = .int e.ts) →
       ∀ e ∈ l, e ∉ R → ∀ k ∈ R, e.ts ≤ k.ts) := by
  refine ⟨?_, applyCountCap_oldest_first, applyByteCap_oldest_first⟩
  intro size now anchor_store circle_id cs hcs hnd hts
  obtain ⟨R, hR, hcount, hbytes, hage⟩ := pruneCircleStore_ok size now cs hnd hts
  refine ⟨R, hR, ?_, hcount, hbytes, hage⟩
  unfold prune_anchor_store
  rw [hcs]
  dsimp only
  by_cases hemp : cs.isEmpty
  · rw [if_pos hemp, if_pos hemp]
  · rw [if_neg hemp, if_neg hemp, hR]

/-- C9 (witness): the retention theorem applied at a concrete two-entry
store with integer timestamps. -/
theorem c9_anchor_retention_witness :
    ∃ R : List (String × Envelope),
      pruneCircleStore (fun e => e.payload.length) 50
        [("a", { created_ts := some (.int 40), payload := "xx" }),
         ("b", { created_ts := some (.int 45), payload := "yy" })] = (R, none) ∧
      prune_anchor_store (fun e => e.payload.length) 50
        [("circA",
          [("a", { created_ts := some (.int 40), payload := "xx" }),
           ("b", { created_ts := some (.int 45), payload := "yy" })])]
        "circA" =
        (if ([("a", ({ created_ts := some (.int 40), payload := "xx" } : Envelope)),
              ("b", { created_ts := some (.int 45), payload := "yy" })] :
              List (String × Envelope)).isEmpty then
            [("circA",
              [("a", { created_ts := some (.int 40), payload := "xx" }),
               ("b", { created_ts := some (.int 45), payload := "yy" })])]
          else dinsert
            [("circA",
              [("a", { created_ts := some (.int 40), payload := "xx" }),
               ("b", { created_ts := some (.int 45), payload := "yy" })])]
            "circA" R, none) ∧
      R.length ≤ ANCHOR_MAX_MSGS ∧
      (R.map (fun p => (fun e : Envelope => e.payload.length) p.2)).sum ≤
        ANCHOR_MAX_BYTES ∧
      (∀ p ∈ R, ∀ n : Int, envCreatedTs p.2 = .ok n →
        50 - n ≤ ANCHOR_MAX_AGE_S) :=
  c9_anchor_retention.1 (fun e => e.payload.length) 50
    [("circA",
      [("a", { created_ts := some (.int 40), payload := "xx" }),
       ("b", { created_ts := some (.int 45), payload := "yy" })])]
    "circA"
    [("a", { created_ts := some (.int 40), payload := "xx" }),
     ("b", { created_ts := some (.int 45), payload := "yy" })]
    (by decide) (by decide)
    (by
      intro p hp
      rcases List.mem_cons.1 hp with h | h
      · subst h
        exact ⟨40, rfl⟩
      · rcases List.mem_cons.1 h with h2 | h2
        · subst h2
          exact ⟨45, rfl⟩
        · cases h2)

end Felund
